import Mathlib

/-
Verification of the Advance-Timetable-Generator scheduling core.

Shallow embedding of the backend scheduling engine:
  backend/constraints/hard_constraints.py
  backend/constraints/constraint_engine.py
  backend/engine/state_manager.py
  backend/engine/optimizer.py
  backend/engine/feasibility.py
  backend/engine/lab_scheduler.py
  backend/engine/theory_scheduler.py
  backend/engine/candidate_generator.py

Python dictionaries are modelled as association lists with insert-or-replace
semantics (dget / dset / ddel below), Python lists as Lean lists, Python ints
as Int, and record-shaped dicts as structures whose absent string fields are
the empty string (falsy) and whose optionally-absent non-string fields are
Option values.
-/

set_option autoImplicit false

/-- A timetable slot assignment: the dictionary shape documented in
backend/constraints/base.py (id, day, slot, year, division, batch, subject,
teacher, room, type).  Absent string fields are modelled as the empty string,
which is falsy in Python exactly like a missing key. -/
structure Slot where
  id : String := ""
  day : String := ""
  slot : Int := 0
  year : String := ""
  division : String := ""
  batch : Option String := none
  subject : String := ""
  teacher : String := ""
  room : String := ""
  type : String := ""
deriving DecidableEq, Repr

/-- Python dict lookup: value of the first (unique) entry with the given key. -/
def dget {K V : Type} [DecidableEq K] : List (K × V) → K → Option V
  | [], _ => none
  | e :: es, k => if e.1 = k then some e.2 else dget es k

/-- Python dict write `m[k] = v`: replace the entry in place if the key is
present, otherwise append a new entry (insertion-order semantics). -/
def dset {K V : Type} [DecidableEq K] : List (K × V) → K → V → List (K × V)
  | [], k, v => [(k, v)]
  | e :: es, k, v => if e.1 = k then (k, v) :: es else e :: dset es k v

/-- Python dict delete `del m[k]`: remove the (unique) entry with the key. -/
def ddel {K V : Type} [DecidableEq K] : List (K × V) → K → List (K × V)
  | [], _ => []
  | e :: es, k => if e.1 = k then es else e :: ddel es k

/-- First-occurrence deduplication: the key order obtained by inserting the
elements of a list into a Python dict one by one. -/
def pyDedup {α : Type} [DecidableEq α] (l : List α) : List α :=
  l.foldl (fun acc x => if x ∈ acc then acc else acc ++ [x]) []

/- ------------------------------------------------------------------ -/
/- Hard constraints (backend/constraints/hard_constraints.py)          -/
/- ------------------------------------------------------------------ -/

/-- The slots of a timetable grouped under the (day, slot-index) key, as built
by the grouping loops of TeacherNonOverlapConstraint.check and
RoomNonOverlapConstraint.check. -/
def slots_at (tt : List Slot) (d : String) (i : Int) : List Slot :=
  tt.filter (fun s => s.day = d ∧ s.slot = i)

/-- The (day, slot-index) keys of a timetable in first-occurrence order (the
iteration order of the `time_slots` dict). -/
def time_keys (tt : List Slot) : List (String × Int) :=
  pyDedup (tt.map (fun s => (s.day, s.slot)))

/-- Teacher names collected at one (day, slot) group by
TeacherNonOverlapConstraint.check: falsy and "TBA" teachers are skipped. -/
def teacher_names_at (tt : List Slot) (d : String) (i : Int) : List String :=
  pyDedup (((slots_at tt d i).map (fun s => s.teacher)).filter
    (fun t => ¬(t = "" ∨ t = "TBA")))

/-- The slots a given teacher occupies inside one (day, slot) group. -/
def teacher_slots_at (tt : List Slot) (d : String) (i : Int) (t : String) : List Slot :=
  (slots_at tt d i).filter (fun s => s.teacher = t)

/-- TeacherNonOverlapConstraint.check: one violation per (teacher, day, slot)
with more than one assigned slot.  The source has no parallel-lab exemption:
every multiply-assigned non-falsy, non-"TBA" teacher is reported. -/
def teacher_overlap_violations (tt : List Slot) : List (String × String × Int) :=
  (time_keys tt).flatMap (fun k =>
    ((teacher_names_at tt k.1 k.2).filter
      (fun t => 1 < (teacher_slots_at tt k.1 k.2 t).length)).map
      (fun t => (t, k.1, k.2)))

/-- The `valid` field returned by TeacherNonOverlapConstraint.check. -/
def teacher_check_valid (tt : List Slot) : Bool :=
  teacher_overlap_violations tt = []

/-- Room names collected at one (day, slot) group by
RoomNonOverlapConstraint.check: falsy and "TBA" rooms are skipped. -/
def room_names_at (tt : List Slot) (d : String) (i : Int) : List String :=
  pyDedup (((slots_at tt d i).map (fun s => s.room)).filter
    (fun r => ¬(r = "" ∨ r = "TBA")))

/-- The slots a given room hosts inside one (day, slot) group. -/
def room_slots_at (tt : List Slot) (d : String) (i : Int) (r : String) : List Slot :=
  (slots_at tt d i).filter (fun s => s.room = r)

/-- RoomNonOverlapConstraint.check: one violation per (room, day, slot) with
more than one occupying slot; no parallel-lab exemption in the source. -/
def room_overlap_violations (tt : List Slot) : List (String × String × Int) :=
  (time_keys tt).flatMap (fun k =>
    ((room_names_at tt k.1 k.2).filter
      (fun r => 1 < (room_slots_at tt k.1 k.2 r).length)).map
      (fun r => (r, k.1, k.2)))

/-- The `valid` field returned by RoomNonOverlapConstraint.check. -/
def room_check_valid (tt : List Slot) : Bool :=
  room_overlap_violations tt = []

/- Configuration records (context dictionaries). -/

/-- One subject record of smartInputData.subjects.  `lecturesPerWeek` defaults
to 0 at every use site, so it is stored directly; `weeklyLectures` and
`batches` have different defaults at different call sites and stay Option. -/
structure SubjectRec where
  name : String := ""
  year : String := ""
  division : String := ""
  lecturesPerWeek : Int := 0
  weeklyLectures : Option Int := none
  isPractical : Bool := false
  type : String := ""
  batches : Option Int := none
deriving DecidableEq, Repr

/-- One teacher record of smartInputData.teachers. -/
structure TeacherRec where
  name : String := ""
  subjects : List String := []
  maxLecturesPerWeek : Option Int := none
deriving DecidableEq, Repr

/-- One entry of smartInputData.teacherSubjectMap. -/
structure MapEntry where
  subjectName : String := ""
  teacherName : String := ""
deriving DecidableEq, Repr

/-- branchData.  sharedLabs keeps only the lab names (the capacity field is
never read by the embedded components).  startTime / endTime / recessStart
hold the minutes-of-day value produced by utils.time_utils.parse_time, with
none standing for an unparseable string; the parse of the default strings
"9:00 AM" / "5:00 PM" / "1:00 PM" is 540 / 1020 / 780 minutes. -/
structure BranchData where
  academicYears : List String := []
  divisions : List (String × List String) := []
  rooms : List String := []
  labs : List String := []
  sharedLabs : List String := []
  labBatchesPerYear : List (String × Int) := []
  slotsPerDay : Option Int := none
  workingDays : Option Int := none
  startTime : Option Nat := some 540
  endTime : Option Nat := some 1020
  lectureDuration : Int := 60
  recessEnabled : Bool := false
  recessStart : Option Nat := some 780
deriving DecidableEq, Repr

/-- smartInputData. -/
structure SmartInput where
  subjects : List SubjectRec := []
  teachers : List TeacherRec := []
  teacherSubjectMap : List MapEntry := []
deriving DecidableEq, Repr

/-- The generation context handed to every component. -/
structure Context where
  branchData : BranchData := {}
  smartInputData : SmartInput := {}
deriving DecidableEq, Repr

/- WeeklyLectureCompletionConstraint (hard_constraints.py lines 166-243). -/

/-- The `required_lectures` dict built by WeeklyLectureCompletionConstraint:
key (name, year, division); practical subjects have their weekly count
multiplied by the year's lab-batch count (default 3). -/
def required_lectures_map (ctx : Context) :
    List ((String × String × String) × Int) :=
  ctx.smartInputData.subjects.foldl (fun m s =>
    let req :=
      if s.isPractical ∨ s.type = "Practical" then
        s.lecturesPerWeek * ((dget ctx.branchData.labBatchesPerYear s.year).getD 3)
      else s.lecturesPerWeek
    dset m (s.name, s.year, s.division) req) []

/-- `required_lectures.get(key, 0)`. -/
def required_lectures (ctx : Context) (k : String × String × String) : Int :=
  (dget (required_lectures_map ctx) k).getD 0

/-- A slot counted by the actual-lecture tally: practical-typed and Free
slots are skipped. -/
def counts_as_lecture (s : Slot) : Bool :=
  ¬(s.type = "Practical" ∨ s.subject = "Free")

/-- `actual_lectures.get(key, 0)`: number of counted slots with the key. -/
def actual_lectures (tt : List Slot) (k : String × String × String) : Int :=
  ((tt.filter counts_as_lecture).countP
    (fun s => (s.subject, s.year, s.division) = k) : Nat)

/-- The key set `set(required) | set(actual)` (iteration order of a Python
set is unspecified; first-occurrence order is one admissible order). -/
def weekly_keys (ctx : Context) (tt : List Slot) :
    List (String × String × String) :=
  pyDedup ((required_lectures_map ctx).map (fun e => e.1) ++
    (tt.filter counts_as_lecture).map (fun s => (s.subject, s.year, s.division)))

/-- The keys WeeklyLectureCompletionConstraint.check reports as violations:
required and actual counts differ. -/
def weekly_violation_keys (ctx : Context) (tt : List Slot) :
    List (String × String × String) :=
  (weekly_keys ctx tt).filter
    (fun k => ¬(required_lectures ctx k = actual_lectures tt k))

/-- The `valid` field returned by WeeklyLectureCompletionConstraint.check. -/
def weekly_check_valid (ctx : Context) (tt : List Slot) : Bool :=
  weekly_violation_keys ctx tt = []

/- StructuralValidityConstraint (hard_constraints.py lines 246-341). -/

/-- All division codes of branchData.divisions (the `valid_divisions` set). -/
def valid_divisions (bd : BranchData) : List String :=
  (bd.divisions.map (fun e => e.2)).flatten

/-- The `valid_rooms` set after merging rooms, legacy labs and shared labs. -/
def valid_rooms (bd : BranchData) : List String :=
  bd.rooms ++ bd.labs ++ bd.sharedLabs

/-- Number of violations StructuralValidityConstraint.check reports for one
slot (year / division / subject / teacher / room existence). -/
def structural_slot_violations (ctx : Context) (s : Slot) : Nat :=
  (if s.year ≠ "" ∧ s.year ∉ ctx.branchData.academicYears then 1 else 0) +
  (if s.division ≠ "" ∧ s.division ∉ valid_divisions ctx.branchData then 1 else 0) +
  (if s.subject ≠ "" ∧ s.subject ∉ (["Unassigned", "Free"] : List String) ∧
      s.subject ∉ ctx.smartInputData.subjects.map (fun x => x.name) then 1 else 0) +
  (if s.teacher ≠ "" ∧ s.teacher ≠ "TBA" ∧
      s.teacher ∉ ctx.smartInputData.teachers.map (fun x => x.name) then 1 else 0) +
  (if s.room ≠ "" ∧ s.room ≠ "TBA" ∧ s.room ∉ valid_rooms ctx.branchData then 1 else 0)

/-- The `valid` field returned by StructuralValidityConstraint.check. -/
def structural_check_valid (ctx : Context) (tt : List Slot) : Bool :=
  tt.all (fun s => structural_slot_violations ctx s = 0)

/-- PracticalBatchSyncConstraint.check: the check body is a no-op (`pass`),
so the violation list is always empty and the result always valid. -/
def batch_sync_check_valid (_tt : List Slot) : Bool :=
  true

/-- The `valid` field of ConstraintEngine.validate_timetable: conjunction of
the five registered hard constraints (all enabled on a fresh engine). -/
def validate_timetable_valid (ctx : Context) (tt : List Slot) : Bool :=
  teacher_check_valid tt && room_check_valid tt && batch_sync_check_valid tt &&
    weekly_check_valid ctx tt && structural_check_valid ctx tt

/- ------------------------------------------------------------------ -/
/- Scheduling state (backend/engine/state_manager.py)                  -/
/- ------------------------------------------------------------------ -/

/-- A slot_grid value: a single assignment, or a list of assignments once a
second batch has been appended to the same key. -/
inductive GridVal where
  | single (a : Slot)
  | multi (l : List Slot)
deriving DecidableEq, Repr

/-- The grid key (day, slot, year, division). -/
def slot_key (a : Slot) : String × Int × String × String :=
  (a.day, a.slot, a.year, a.division)

/-- The teacher-occupancy key (teacher, day, slot). -/
def teacher_key (a : Slot) : String × String × Int :=
  (a.teacher, a.day, a.slot)

/-- The room-occupancy key (room, day, slot). -/
def room_key (a : Slot) : String × String × Int :=
  (a.room, a.day, a.slot)

/-- The subject-fulfilled-count key (subject, year, division). -/
def subject_key (a : Slot) : String × String × String :=
  (a.subject, a.year, a.division)

/-- TimetableState: the slot grid, the raw assignment list, the three derived
indices and the locked-slot id set (modelled as a duplicate-free list). -/
structure TimetableState where
  slot_grid : List ((String × Int × String × String) × GridVal) := []
  slots : List Slot := []
  teacher_assignments : List ((String × String × Int) × List Slot) := []
  room_assignments : List ((String × String × Int) × List Slot) := []
  subject_counts : List ((String × String × String) × Int) := []
  locked_slots : List String := []
deriving DecidableEq, Repr

/-- The lock id: `assignment.get('id', f"{day}_{slot}_{year}_{division}")`
(an absent id is modelled as the empty string). -/
def lock_id (a : Slot) : String :=
  if a.id = "" then
    a.day ++ "_" ++ toString a.slot ++ "_" ++ a.year ++ "_" ++ a.division
  else a.id

/-- TimetableState.assign_slot: record the assignment in the grid (appending
when the key is already occupied), the slots list, the teacher / room / subject
indices (guarded on truthiness of the respective field), and optionally the
locked set. -/
def assign_slot (st : TimetableState) (a : Slot) (lock : Bool) : TimetableState :=
  let key := slot_key a
  let grid :=
    match dget st.slot_grid key with
    | some (GridVal.multi (e :: es)) => dset st.slot_grid key (GridVal.multi ((e :: es) ++ [a]))
    | some (GridVal.multi []) => dset st.slot_grid key (GridVal.single a)
    | some (GridVal.single e) => dset st.slot_grid key (GridVal.multi [e, a])
    | none => dset st.slot_grid key (GridVal.single a)
  let ta :=
    if a.teacher ≠ "" then
      dset st.teacher_assignments (teacher_key a)
        (((dget st.teacher_assignments (teacher_key a)).getD []) ++ [a])
    else st.teacher_assignments
  let ra :=
    if a.room ≠ "" then
      dset st.room_assignments (room_key a)
        (((dget st.room_assignments (room_key a)).getD []) ++ [a])
    else st.room_assignments
  let sc :=
    if a.subject ≠ "" then
      dset st.subject_counts (subject_key a)
        (((dget st.subject_counts (subject_key a)).getD 0) + 1)
    else st.subject_counts
  let locked :=
    if lock then
      (if lock_id a ∈ st.locked_slots then st.locked_slots else st.locked_slots ++ [lock_id a])
    else st.locked_slots
  { slot_grid := grid, slots := st.slots ++ [a], teacher_assignments := ta,
    room_assignments := ra, subject_counts := sc, locked_slots := locked }

/-- TimetableState.rollback_slot: delete the whole grid entry at the slot key,
remove the assignment from the slots list and from the teacher / room index
lists (dropping emptied entries), and decrement the subject count (dropping it
at zero). -/
def rollback_slot (st : TimetableState) (a : Slot) : TimetableState :=
  let key := slot_key a
  let grid := if (dget st.slot_grid key).isSome then ddel st.slot_grid key else st.slot_grid
  let slots := if a ∈ st.slots then st.slots.erase a else st.slots
  let ta :=
    match dget st.teacher_assignments (teacher_key a) with
    | none => st.teacher_assignments
    | some l =>
      let l2 := if a ∈ l then l.erase a else l
      if l2 = [] then ddel st.teacher_assignments (teacher_key a)
      else dset st.teacher_assignments (teacher_key a) l2
  let ra :=
    match dget st.room_assignments (room_key a) with
    | none => st.room_assignments
    | some l =>
      let l2 := if a ∈ l then l.erase a else l
      if l2 = [] then ddel st.room_assignments (room_key a)
      else dset st.room_assignments (room_key a) l2
  let sc :=
    match dget st.subject_counts (subject_key a) with
    | none => st.subject_counts
    | some c =>
      if c - 1 ≤ 0 then ddel st.subject_counts (subject_key a)
      else dset st.subject_counts (subject_key a) (c - 1)
  { slot_grid := grid, slots := slots, teacher_assignments := ta,
    room_assignments := ra, subject_counts := sc, locked_slots := st.locked_slots }

/-- TimetableState.get_slot_assignment. -/
def get_slot_assignment (st : TimetableState) (day : String) (slot_index : Int)
    (year division : String) : Option GridVal :=
  dget st.slot_grid (day, slot_index, year, division)

/-- TimetableState.is_teacher_available. -/
def is_teacher_available (st : TimetableState) (teacher day : String)
    (slot_index : Int) : Bool :=
  (dget st.teacher_assignments (teacher, day, slot_index)).isNone

/-- TimetableState.is_room_available. -/
def is_room_available (st : TimetableState) (room day : String)
    (slot_index : Int) : Bool :=
  (dget st.room_assignments (room, day, slot_index)).isNone

/-- TimetableState.get_subject_count. -/
def get_subject_count (st : TimetableState) (subject year division : String) : Int :=
  (dget st.subject_counts (subject, year, division)).getD 0

/-- TimetableState.get_remaining_lectures: required count of the first
matching subject record minus the fulfilled count, clamped at 0. -/
def get_remaining_lectures (ctx : Context) (st : TimetableState)
    (subject year division : String) : Int :=
  let required :=
    match ctx.smartInputData.subjects.find?
      (fun s => s.name = subject ∧ s.year = year ∧ s.division = division) with
    | some s => s.lecturesPerWeek
    | none => 0
  max 0 (required - get_subject_count st subject year division)

/-- Side condition on one occupancy-index entry under which assign/rollback
restores it exactly: the entry is absent, or its list is non-empty and does
not already contain the assignment. -/
def occ_ok (a : Slot) (o : Option (List Slot)) : Bool :=
  match o with
  | none => true
  | some l => ¬(a ∈ l) ∧ l ≠ []

/-- Side condition on the subject-count entry under which assign/rollback
restores it exactly: absent, or positive with a truthy subject name. -/
def cnt_ok (sub : String) (o : Option Int) : Bool :=
  match o with
  | none => true
  | some c => 1 ≤ c ∧ sub ≠ ""

/- ------------------------------------------------------------------ -/
/- Optimizer (backend/engine/optimizer.py)                             -/
/- ------------------------------------------------------------------ -/

/-- The four registered soft-constraint score functions, abstracted: the
source computes them with floating-point statistics (mean / stdev), so the
optimizer is embedded relative to an arbitrary list of score functions and
every optimizer theorem is proved for all of them. -/
def SoftScores : Type := List (List Slot → ℚ)

/-- ConstraintEngine.compute_quality_score: mean of the soft scores, 100 when
there are none. -/
def compute_quality_score (ss : SoftScores) (tt : List Slot) : ℚ :=
  let scores := (ss : List (List Slot → ℚ)).map (fun f => f tt)
  if scores = [] then 100 else scores.sum / (scores.length : ℚ)

/-- Round-half-to-even to an integer (the behaviour of Python's round,
embedded in exact rational arithmetic). -/
def round_half_even (q : ℚ) : ℤ :=
  let n := ⌊q⌋
  let r := q - (n : ℚ)
  if r < 1 / 2 then n
  else if 1 / 2 < r then n + 1
  else if Even n then n else n + 1

/-- Python round(x, 2). -/
def py_round2 (q : ℚ) : ℚ :=
  (round_half_even (q * 100) : ℚ) / 100

/-- The qualityScore field of ConstraintEngine.validate_timetable:
the quality score rounded to two decimals. -/
def validate_quality_score (ss : SoftScores) (tt : List Slot) : ℚ :=
  py_round2 (compute_quality_score ss tt)

/-- TimetableOptimizer._generate_neighbor.  `random.sample(lecture_slots, 2)`
is modelled by an oracle pair (c1, c2): i = c1 mod n picks the first slot and
j enumerates the remaining indices, so every ordered pair of distinct lecture
slots is reachable.  The swap then rewrites day/slot of every entry whose id
matches, exactly like the enumerate loop of the source. -/
def gen_neighbor (tt : List Slot) (choice : Nat × Nat) : Option (List Slot) :=
  if tt.length < 2 then none
  else
    let lectures := tt.filter (fun s => s.type = "Lecture")
    if lectures.length < 2 then none
    else
      let n := lectures.length
      let i := choice.1 % n
      let j0 := choice.2 % (n - 1)
      let j := if i ≤ j0 then j0 + 1 else j0
      let slot1 := lectures.getD i {}
      let slot2 := lectures.getD j {}
      if slot1.year ≠ slot2.year ∨ slot1.division ≠ slot2.division then none
      else
        some (tt.map (fun s =>
          if s.id = slot1.id then { s with day := slot2.day, slot := slot2.slot }
          else if s.id = slot2.id then { s with day := slot1.day, slot := slot1.slot }
          else s))

/-- The optimizer loop state: current / best timetable and scores, and the
consecutive-non-improvement counter. -/
structure OptimState where
  current : List Slot
  current_score : ℚ
  best : List Slot
  best_score : ℚ
  stuck : Nat
deriving Repr

/-- One iteration of TimetableOptimizer.optimize: skip when no neighbor or an
invalid neighbor; otherwise hill-climb on the rounded validation score,
tracking the best-ever timetable, and random-restart from the best after 20
consecutive non-improving iterations. -/
def optimize_step (ctx : Context) (ss : SoftScores) (rnd : Nat → Nat × Nat)
    (st : OptimState) (i : Nat) : OptimState :=
  match gen_neighbor st.current (rnd i) with
  | none => st
  | some nb =>
    if validate_timetable_valid ctx nb then
      let ns := validate_quality_score ss nb
      let st1 : OptimState :=
        if st.current_score < ns then
          let st2 := { st with current := nb, current_score := ns, stuck := 0 }
          if st.best_score < ns then { st2 with best := nb, best_score := ns } else st2
        else { st with stuck := st.stuck + 1 }
      if 20 ≤ st1.stuck then
        { st1 with current := st1.best, current_score := st1.best_score, stuck := 0 }
      else st1
    else st

/-- The optimizer loop over `range(max_iterations)` from the initial state
(current = best = input, scores = compute_quality_score(input)). -/
def optimize_run (ctx : Context) (ss : SoftScores) (rnd : Nat → Nat × Nat)
    (tt : List Slot) (maxIter : Nat) : OptimState :=
  let s0 := compute_quality_score ss tt
  (List.range maxIter).foldl (optimize_step ctx ss rnd)
    { current := tt, current_score := s0, best := tt, best_score := s0, stuck := 0 }

/-- TimetableOptimizer.optimize: an empty timetable is returned unchanged,
otherwise the loop runs and the best timetable ever observed is returned. -/
def optimize (ctx : Context) (ss : SoftScores) (rnd : Nat → Nat × Nat)
    (tt : List Slot) (maxIter : Nat) : List Slot :=
  if tt = [] then tt else (optimize_run ctx ss rnd tt maxIter).best

/- ------------------------------------------------------------------ -/
/- Feasibility verifier (backend/engine/feasibility.py)                -/
/- ------------------------------------------------------------------ -/

/-- The result shape of FeasibilityVerifier.verify. -/
inductive FeasOutcome where
  | feasible
  | infeasible (reason : String) (details : String)
deriving DecidableEq, Repr

/-- Sum of weeklyLectures over the non-practical subjects of a year. -/
def year_required_lectures (ctx : Context) (year : String) : Int :=
  (ctx.smartInputData.subjects.filter
    (fun s => s.year = year ∧ ¬s.isPractical)).foldl
    (fun acc s => acc + s.weeklyLectures.getD 0) 0

/-- Number of practical subjects of a year. -/
def year_lab_subjects_count (ctx : Context) (year : String) : Nat :=
  ctx.smartInputData.subjects.countP (fun s => s.year = year ∧ s.isPractical)

/-- FeasibilityVerifier._check_time_feasibility: first (year, division) whose
required theory lectures exceed the slots left after lab windows fails. -/
def check_time_feasibility (ctx : Context) : FeasOutcome :=
  let totalAvail := (ctx.branchData.workingDays.getD 5) * (ctx.branchData.slotsPerDay.getD 6)
  match ctx.branchData.academicYears.findSome? (fun year =>
    ((dget ctx.branchData.divisions year).getD []).findSome? (fun dv =>
      let req := year_required_lectures ctx year
      let labNeeded : Int := (year_lab_subjects_count ctx year : Int) * 2
      if req > totalAvail - labNeeded then some (year, dv, req, labNeeded) else none)) with
  | some (year, dv, req, labNeeded) =>
    FeasOutcome.infeasible ("Time infeasible for " ++ year ++ "-" ++ dv)
      ("Requires " ++ toString req ++ " theory lectures + " ++ toString labNeeded ++
        " lab slots, but only " ++ toString totalAvail ++ " total slots available.")
  | none => FeasOutcome.feasible

/-- The parallel-batch count configured for a year (default 3). -/
def year_batches (ctx : Context) (year : String) : Int :=
  (dget ctx.branchData.labBatchesPerYear year).getD 3

/-- The shared-lab count seen by the Feasibility Verifier. -/
def shared_lab_count (ctx : Context) : Int :=
  (ctx.branchData.sharedLabs.length : Int)

/-- The first year whose batch count exceeds the shared-lab count, with its
batch count (the year _check_lab_feasibility reports). -/
def first_lab_shortfall (ctx : Context) : Option (String × Int) :=
  ctx.branchData.academicYears.findSome? (fun year =>
    let nb := year_batches ctx year
    if nb > shared_lab_count ctx then some (year, nb) else none)

/-- The reason string of a lab-feasibility failure. -/
def lab_fail_reason (year : String) : String :=
  "Insufficient labs for " ++ year

/-- The details string of a lab-feasibility failure. -/
def lab_fail_details (ctx : Context) (year : String) (nb : Int) : String :=
  year ++ " has " ++ toString nb ++ " parallel batches but only " ++
    toString (shared_lab_count ctx) ++ " shared labs available."

/-- FeasibilityVerifier._check_lab_feasibility. -/
def check_lab_feasibility (ctx : Context) : FeasOutcome :=
  match first_lab_shortfall ctx with
  | some (year, nb) => FeasOutcome.infeasible (lab_fail_reason year) (lab_fail_details ctx year nb)
  | none => FeasOutcome.feasible

/-- FeasibilityVerifier._check_teacher_feasibility: total required teaching
periods against total teacher capacity. -/
def check_teacher_feasibility (ctx : Context) : FeasOutcome :=
  let load := ctx.branchData.academicYears.foldl (fun acc year =>
    let ndiv : Int := (((dget ctx.branchData.divisions year).getD []).length : Int)
    let nb := year_batches ctx year
    ctx.smartInputData.subjects.foldl (fun acc2 s =>
      if s.year = year then
        if s.isPractical then acc2 + 2 * ndiv * nb
        else acc2 + (s.weeklyLectures.getD 0) * ndiv
      else acc2) acc) 0
  let capacity := ctx.smartInputData.teachers.foldl
    (fun acc t => acc + t.maxLecturesPerWeek.getD 25) 0
  if load > capacity then
    FeasOutcome.infeasible "Teacher Overload"
      ("Total required teaching periods: " ++ toString load ++
        ", but total teacher capacity is " ++ toString capacity ++ ".")
  else FeasOutcome.feasible

/-- FeasibilityVerifier.verify: subjects present, then time, lab and teacher
checks in order, short-circuiting on the first failure. -/
def feasibility_verify (ctx : Context) : FeasOutcome :=
  if ctx.smartInputData.subjects = [] then
    FeasOutcome.infeasible "No subjects defined" "Please upload subjects."
  else
    match check_time_feasibility ctx with
    | FeasOutcome.infeasible r d => FeasOutcome.infeasible r d
    | FeasOutcome.feasible =>
      match check_lab_feasibility ctx with
      | FeasOutcome.infeasible r d => FeasOutcome.infeasible r d
      | FeasOutcome.feasible => check_teacher_feasibility ctx

/- ------------------------------------------------------------------ -/
/- Lab scheduler (backend/engine/lab_scheduler.py)                     -/
/- ------------------------------------------------------------------ -/

/-- The fixed day list used by the generation engine. -/
def week_days : List String :=
  ["Monday", "Tuesday", "Wednesday", "Thursday", "Friday", "Saturday"]

/-- The result of utils.time_utils.calculate_time_slots. -/
structure TimeConfig where
  total_slots : Int
  recess_slot : Option Int
deriving DecidableEq, Repr

/-- utils.time_utils.calculate_time_slots: slot count from the working-day
span and lecture duration, with the recess slot index when enabled.  Times
are the minutes-of-day values of the parsed time strings; a timedelta's
seconds field makes the differences wrap modulo one day. -/
def calculate_time_slots (bd : BranchData) : TimeConfig :=
  match bd.startTime, bd.endTime with
  | some st, some en =>
    if bd.lectureDuration ≤ 0 then { total_slots := 8, recess_slot := none }
    else
      let dayMinutes : Int := ((en : Int) - (st : Int)).emod 1440
      let total := dayMinutes.fdiv bd.lectureDuration
      let recess :=
        if bd.recessEnabled then
          match bd.recessStart with
          | some rs => some ((((rs : Int) - (st : Int)).emod 1440).fdiv bd.lectureDuration)
          | none => none
        else none
      { total_slots := total, recess_slot := recess }
  | _, _ => { total_slots := 8, recess_slot := none }

/-- LabScheduler._get_valid_windows: (day, start) pairs with start sliding
from 1 to total_slots - duration + 1, skipping windows containing the recess
slot. -/
def get_valid_windows (bd : BranchData) (duration : Int) : List (String × Int) :=
  let tc := calculate_time_slots bd
  week_days.flatMap (fun day =>
    ((List.range (tc.total_slots - duration + 1).toNat).map
      (fun n => (n : Int) + 1)).filterMap (fun i =>
        match tc.recess_slot with
        | some r => if i ≤ r ∧ r < i + duration then none else some (day, i)
        | none => some (day, i)))

/-- LabScheduler._map_teachers_to_subjects: explicit teacherSubjectMap entries
first (duplicates kept), then each teacher's own subject list (appended only
when not already present). -/
def map_teachers_to_subjects (si : SmartInput) : List (String × List String) :=
  let m1 := si.teacherSubjectMap.foldl (fun m e =>
    if e.subjectName ≠ "" ∧ e.teacherName ≠ "" then
      dset m e.subjectName (((dget m e.subjectName).getD []) ++ [e.teacherName])
    else m) []
  si.teachers.foldl (fun m t =>
    t.subjects.foldl (fun m2 sub =>
      let cur := (dget m2 sub).getD []
      if t.name ∈ cur then m2 else dset m2 sub (cur ++ [t.name])) m) m1

/-- The lab pool the LabScheduler uses: sharedLabs, or the legacy labs list
when sharedLabs is empty. -/
def lab_scheduler_labs (bd : BranchData) : List String :=
  if bd.sharedLabs ≠ [] then bd.sharedLabs else bd.labs

/-- The offsets 0, ..., duration-1 of a lab window. -/
def window_offsets (duration : Int) : List Int :=
  (List.range duration.toNat).map (fun n => (n : Int))

/-- LabScheduler._is_batch_free: a window slot blocks the batch only when the
batch itself is already there or a THEORY session occupies the division;
other parallel batches are allowed. -/
def is_batch_free (st : TimetableState) (day : String) (start duration : Int)
    (year division batch : String) : Bool :=
  (window_offsets duration).all (fun off =>
    match get_slot_assignment st day (start + off) year division with
    | none => true
    | some (GridVal.single a) => ¬(a.batch = some batch) ∧ ¬(a.type = "THEORY")
    | some (GridVal.multi l) =>
      l.all (fun a => ¬(a.batch = some batch) ∧ ¬(a.type = "THEORY")))

/-- LabScheduler._find_lab_room: first lab free across the whole window. -/
def find_lab_room (st : TimetableState) (labs : List String) (day : String)
    (start duration : Int) : Option String :=
  labs.find? (fun name =>
    (window_offsets duration).all (fun off => is_room_available st name day (start + off)))

/-- LabScheduler._find_teacher: first mapped teacher free across the whole
window; no fallback beyond the subject-teacher map. -/
def find_teacher (st : TimetableState) (mapping : List (String × List String))
    (subjectName day : String) (start duration : Int) : Option String :=
  ((dget mapping subjectName).getD []).find? (fun t =>
    (window_offsets duration).all (fun off => is_teacher_available st t day (start + off)))

/-- LabScheduler._commit_assignment: one locked LAB assignment per window
slot. -/
def commit_assignment (st : TimetableState) (year division batch subjectName
    teacher room day : String) (start duration : Int) : TimetableState :=
  (window_offsets duration).foldl (fun st2 off =>
    assign_slot st2
      { day := day, slot := start + off, year := year, division := division,
        batch := some batch, subject := subjectName, teacher := teacher,
        room := room, type := "LAB",
        id := "LAB_" ++ year ++ "_" ++ division ++ "_" ++ day ++ "_" ++
          toString start ++ "_" ++ batch ++ "_" ++ toString off } true) st

/-- LabScheduler._assign_batch_subject: scan the candidate windows in order;
at the first window where the batch is free and a lab room and a qualified
teacher are available over the whole window, commit and report success. -/
def assign_batch_subject (labs : List String) (mapping : List (String × List String))
    (bd : BranchData) (st : TimetableState) (year division batch : String)
    (subject : SubjectRec) (duration : Int) : Bool × TimetableState :=
  match (get_valid_windows bd duration).findSome? (fun w =>
    if is_batch_free st w.1 w.2 duration year division batch then
      match find_lab_room st labs w.1 w.2 duration with
      | none => none
      | some room =>
        match find_teacher st mapping subject.name w.1 w.2 duration with
        | none => none
        | some teacher => some (w.1, w.2, room, teacher)
    else none) with
  | none => (false, st)
  | some (day, start, room, teacher) =>
    (true, commit_assignment st year division batch subject.name teacher room day start duration)

/-- Rotation `lab_subjects[rotation:] + lab_subjects[:rotation]`. -/
def rotate_list {α : Type} (l : List α) (k : Nat) : List α :=
  l.drop k ++ l.take k

/-- One batch's inner loop of schedule_class_labs: try every subject of the
rotated order, counting completions and threading the state. -/
def batch_run (labs : List String) (mapping : List (String × List String))
    (bd : BranchData) (st : TimetableState) (year division batch : String)
    (subjects : List SubjectRec) (duration : Int) : Nat × TimetableState :=
  subjects.foldl (fun acc subj =>
    let r := assign_batch_subject labs mapping bd acc.2 year division batch subj duration
    (if r.1 then acc.1 + 1 else acc.1, r.2)) (0, st)

/-- The required lab subjects of a year (practical-flagged or
Practical-typed). -/
def lab_subjects_of (ctx : Context) (year : String) : List SubjectRec :=
  ctx.smartInputData.subjects.filter
    (fun s => s.year = year ∧ (s.isPractical ∨ s.type = "Practical"))

/-- The batch list B1, ..., Bn paired with the batch index that
`int(batch[1:]) - 1` recovers from the name. -/
def batch_list (n : Int) : List (Nat × String) :=
  (List.range n.toNat).map (fun b => (b, "B" ++ toString (b + 1)))

/-- LabScheduler.schedule_class_labs: every batch walks its rotated subject
order; a batch counts as successful when it completed all required lab
subjects; the RuntimeError is raised exactly when no batch succeeded (and
labs were required), and the return value says whether all batches did. -/
def schedule_class_labs (ctx : Context) (st : TimetableState)
    (year division : String) : Except String (Bool × TimetableState) :=
  let labs := lab_scheduler_labs ctx.branchData
  let mapping := map_teachers_to_subjects ctx.smartInputData
  let num_batches := year_batches ctx year
  let lab_subjects := lab_subjects_of ctx year
  if lab_subjects = [] then Except.ok (true, st)
  else
    let run := (batch_list num_batches).foldl (fun (acc : Nat × TimetableState) bp =>
      let rotation := bp.1 % lab_subjects.length
      let br := batch_run labs mapping ctx.branchData acc.2 year division bp.2
        (rotate_list lab_subjects rotation) 2
      (if br.1 = lab_subjects.length then acc.1 + 1 else acc.1, br.2)) (0, st)
    if run.1 = 0 then
      Except.error ("Lab scheduling failed. No batches could be scheduled for " ++
        toString lab_subjects.length ++
        " required labs. Check Room/Teacher availability. Debug logs above.")
    else Except.ok (((run.1 : Int) = num_batches), run.2)

/-- The per-batch completion flags of the same run: true for each batch that
completed every required lab subject, in batch order, threading the state
exactly like schedule_class_labs. -/
def batch_completion_flags (ctx : Context) (st : TimetableState)
    (year division : String) : List Bool :=
  let labs := lab_scheduler_labs ctx.branchData
  let mapping := map_teachers_to_subjects ctx.smartInputData
  let num_batches := year_batches ctx year
  let lab_subjects := lab_subjects_of ctx year
  ((batch_list num_batches).foldl (fun (acc : List Bool × TimetableState) bp =>
    let rotation := bp.1 % lab_subjects.length
    let br := batch_run labs mapping ctx.branchData acc.2 year division bp.2
      (rotate_list lab_subjects rotation) 2
    (acc.1 ++ [decide (br.1 = lab_subjects.length)], br.2)) ([], st)).1

/- ------------------------------------------------------------------ -/
/- Theory scheduler day selection (backend/engine/theory_scheduler.py) -/
/- ------------------------------------------------------------------ -/

/-- Modelled from the spec: TimetableState (state_manager.py) defines no
get_daily_load_for_class / get_daily_load_for_teacher methods, although
TheoryScheduler._pick_best_day calls them; the spec says candidate days are
scored by (cohort load that day + teacher load that day).  The two missing
load lookups are therefore taken as function parameters. -/
def pick_best_day (class_load teacher_load : String → Int)
    (excluded : List String) : Option String :=
  ((week_days.filter (fun d => d ∉ excluded)).foldl
    (fun (acc : Option (String × Int)) d =>
      let cl := class_load d
      let tl := teacher_load d
      if 7 ≤ cl then acc
      else if 4 ≤ tl then acc
      else
        match acc with
        | none => some (d, cl + tl)
        | some best => if cl + tl < best.2 then some (d, cl + tl) else acc)
    none).map (fun best => best.1)

/- ------------------------------------------------------------------ -/
/- Candidate generator (backend/engine/candidate_generator.py)         -/
/- ------------------------------------------------------------------ -/

/-- The slot_info argument of generate_candidates. -/
structure SlotInfo where
  day : String := ""
  slot : Int := 0
  year : String := ""
  division : String := ""
deriving DecidableEq, Repr

/-- A candidate: a single assignment dict with a score, or a synchronized
practical group ({practical_group: True, assignments, score}). -/
inductive Candidate where
  | entry (s : Slot) (score : Int)
  | group (assignments : List Slot) (score : Int)
deriving DecidableEq, Repr

/-- The sort key `x.get('score', 0)`. -/
def Candidate.score : Candidate → Int
  | Candidate.entry _ sc => sc
  | Candidate.group _ sc => sc

/-- CandidateGenerator._calculate_candidate_score: teacher daily-load penalty
(from the teacher-occupancy keys), same-subject-today penalty, late-slot
penalty. -/
def calculate_candidate_score (st : TimetableState) (subject teacher day : String)
    (slot_index : Int) (year division : String) : Int :=
  let tds := (st.teacher_assignments.map (fun e => e.1)).countP
    (fun k => k.1 = teacher ∧ k.2.1 = day)
  let s1 : Int := if 4 ≤ tds then 5 else if 3 ≤ tds then 2 else 0
  let s2 : Int :=
    if st.slots.any (fun s => s.subject = subject ∧ s.day = day ∧
        s.year = year ∧ s.division = division) then 3 else 0
  let s3 : Int := if 6 ≤ slot_index then 1 else 0
  s1 + s2 + s3

/-- CandidateGenerator._generate_lecture_candidates. -/
def generate_lecture_candidates (ctx : Context) (st : TimetableState)
    (info : SlotInfo) : List Candidate :=
  ctx.smartInputData.subjects.flatMap (fun subj =>
    if ¬(subj.year = info.year ∧ subj.division = info.division) then []
    else if get_remaining_lectures ctx st subj.name info.year info.division ≤ 0 then []
    else
      ctx.smartInputData.teachers.flatMap (fun t =>
        if subj.name ∉ t.subjects ∧ t.subjects ≠ [] then []
        else if ¬is_teacher_available st t.name info.day info.slot then []
        else
          ctx.branchData.rooms.filterMap (fun room =>
            if ¬is_room_available st room info.day info.slot then none
            else
              some (Candidate.entry
                { day := info.day, slot := info.slot, year := info.year,
                  division := info.division, subject := subj.name,
                  teacher := t.name, room := room, type := "Lecture", batch := none }
                (calculate_candidate_score st subj.name t.name info.day info.slot
                  info.year info.division)))))

/-- CandidateGenerator._generate_practical_candidates. -/
def generate_practical_candidates (ctx : Context) (st : TimetableState)
    (info : SlotInfo) : List Candidate :=
  ctx.smartInputData.subjects.flatMap (fun subj =>
    if ¬(subj.year = info.year ∧ subj.division = info.division ∧
        subj.type = "Practical") then []
    else
      let num_batches := subj.batches.getD 3
      if get_remaining_lectures ctx st subj.name info.year info.division ≤ 0 then []
      else
        let available_teachers := ctx.smartInputData.teachers.filterMap (fun t =>
          if (t.subjects = [] ∨ subj.name ∈ t.subjects) ∧
              is_teacher_available st t.name info.day info.slot then some t.name
          else none)
        if available_teachers = [] then []
        else
          let available_labs := ctx.branchData.labs.filter
            (fun lab => is_room_available st lab info.day info.slot)
          if (available_labs.length : Int) < num_batches then []
          else
            available_teachers.map (fun tname =>
              Candidate.group
                ((List.range num_batches.toNat).map (fun i =>
                  { day := info.day, slot := info.slot, year := info.year,
                    division := info.division, subject := subj.name,
                    teacher := tname, room := available_labs.getD i "",
                    type := "Practical",
                    batch := some ("B" ++ toString (i + 1)) }))
                (calculate_candidate_score st subj.name tname info.day info.slot
                  info.year info.division)))

/-- The "leave free" fallback candidate appended by generate_candidates, with
its sentinel score 1000 ("High score so it's tried last"). -/
def free_candidate (info : SlotInfo) : Candidate :=
  Candidate.entry
    { day := info.day, slot := info.slot, year := info.year,
      division := info.division, subject := "Free", teacher := "TBA",
      room := "TBA", type := "Free", batch := none } 1000

/-- CandidateGenerator.generate_candidates: practical then lecture candidates,
stably sorted by ascending score, with the free fallback appended last. -/
def generate_candidates (ctx : Context) (st : TimetableState)
    (info : SlotInfo) : List Candidate :=
  ((generate_practical_candidates ctx st info ++
    generate_lecture_candidates ctx st info).mergeSort
      (fun a b => a.score ≤ b.score)) ++ [free_candidate info]

/- ------------------------------------------------------------------ -/
/- Concrete instances used by counterexamples and witnesses            -/
/- ------------------------------------------------------------------ -/

/-- Two parallel lab batches of cohort SE-A in the same window sharing one
teacher: the sanctioned parallel-lab situation of the spec, with a shared
teacher name. -/
def ttTeacherLabs : List Slot :=
  [{ id := "L1", day := "Monday", slot := 3, year := "SE", division := "A",
     batch := some "B1", subject := "LabX", teacher := "T1", room := "Lab1",
     type := "LAB" },
   { id := "L2", day := "Monday", slot := 3, year := "SE", division := "A",
     batch := some "B2", subject := "LabY", teacher := "T1", room := "Lab2",
     type := "LAB" }]

/-- Two parallel lab batches of cohort SE-A in the same window sharing one
lab room, with distinct teachers. -/
def ttRoomLabs : List Slot :=
  [{ id := "L1", day := "Monday", slot := 3, year := "SE", division := "A",
     batch := some "B1", subject := "LabX", teacher := "T1", room := "Lab1",
     type := "LAB" },
   { id := "L2", day := "Monday", slot := 3, year := "SE", division := "A",
     batch := some "B2", subject := "LabY", teacher := "T2", room := "Lab1",
     type := "LAB" }]

/-- A first parallel lab batch assignment. -/
def labB1 : Slot :=
  { id := "L1", day := "Monday", slot := 3, year := "SE", division := "A",
    batch := some "B1", subject := "LabX", teacher := "T1", room := "Lab1",
    type := "LAB" }

/-- A second batch assigned to the same (day, slot, year, division) key. -/
def labB2 : Slot :=
  { id := "L2", day := "Monday", slot := 3, year := "SE", division := "A",
    batch := some "B2", subject := "LabY", teacher := "T2", room := "Lab2",
    type := "LAB" }

/-- The state after placing the first batch: its slot key is occupied. -/
def stateOneBatch : TimetableState :=
  assign_slot {} labB1 false

/-- A fresh theory assignment whose keys are absent from stateOneBatch. -/
def thFresh : Slot :=
  { id := "TH1", day := "Tuesday", slot := 1, year := "SE", division := "A",
    batch := none, subject := "Maths", teacher := "T3", room := "R1",
    type := "THEORY" }

/-- A small configuration with one theory subject, used by the optimizer
witnesses. -/
def ctxOpt : Context :=
  { branchData :=
      { academicYears := ["SE"], divisions := [("SE", ["A"])],
        rooms := ["R1"], labBatchesPerYear := [("SE", 2)] },
    smartInputData :=
      { subjects := [{ name := "Maths", year := "SE", division := "A",
                       lecturesPerWeek := 1 }],
        teachers := [{ name := "T1", subjects := ["Maths"] }] } }

/-- A hard-valid one-slot timetable for ctxOpt. -/
def ttOpt : List Slot :=
  [{ id := "S1", day := "Monday", slot := 1, year := "SE", division := "A",
     batch := none, subject := "Maths", teacher := "T1", room := "R1",
     type := "THEORY" }]

/-- The lab-shortfall scenario of the spec: year SE configured with 3
parallel batches but only 2 shared labs, with a feasible time check. -/
def ctxFeas : Context :=
  { branchData :=
      { academicYears := ["SE"], divisions := [("SE", ["A"])],
        sharedLabs := ["Lab1", "Lab2"], labBatchesPerYear := [("SE", 3)],
        slotsPerDay := some 6, workingDays := some 5 },
    smartInputData :=
      { subjects := [{ name := "P1", year := "SE", division := "A",
                       lecturesPerWeek := 1, isPractical := true }],
        teachers := [{ name := "T1", subjects := ["P1"] }] } }

/-- A one-batch, one-lab-subject configuration on which lab scheduling
succeeds for the only batch. -/
def ctxLab : Context :=
  { branchData :=
      { academicYears := ["SE"], divisions := [("SE", ["A"])],
        sharedLabs := ["Lab1"], labBatchesPerYear := [("SE", 1)],
        startTime := some 540, endTime := some 780, lectureDuration := 60 },
    smartInputData :=
      { subjects := [{ name := "P1", year := "SE", division := "A",
                       lecturesPerWeek := 1, isPractical := true }],
        teachers := [{ name := "T1", subjects := ["P1"] }] } }

/-- A concrete cohort daily-load function for the day-selection witness. -/
def clW : String → Int :=
  fun d => if d = "Monday" then 9 else if d = "Tuesday" then 1 else 2

/-- A concrete teacher daily-load function for the day-selection witness. -/
def tlW : String → Int :=
  fun d => if d = "Wednesday" then 5 else 0

/-- An empty context for the candidate-generator counterexample. -/
def ctxEmpty : Context := {}

/-- The slot_info of the candidate-generator counterexample. -/
def infoCG : SlotInfo :=
  { day := "Monday", slot := 2, year := "SE", division := "A" }

/- ------------------------------------------------------------------ -/
/- Helper lemmas                                                       -/
/- ------------------------------------------------------------------ -/

theorem dget_dset_self {K V : Type} [DecidableEq K] (m : List (K × V)) (k : K) (v : V) :
    dget (dset m k v) k = some v := by
  induction m with
  | nil => simp [dset, dget]
  | cons e es ih =>
    by_cases h : e.1 = k
    · simp [dset, h, dget]
    · simp [dset, h, dget, ih]

theorem dset_dset {K V : Type} [DecidableEq K] (m : List (K × V)) (k : K) (v w : V) :
    dset (dset m k v) k w = dset m k w := by
  induction m with
  | nil => simp [dset]
  | cons e es ih =>
    by_cases h : e.1 = k
    · simp [dset, h]
    · simp [dset, h, ih]

theorem dset_self_of_dget {K V : Type} [DecidableEq K] (m : List (K × V)) (k : K) (v : V) :
    dget m k = some v → dset m k v = m := by
  induction m with
  | nil => intro h; simp [dget] at h
  | cons e es ih =>
    obtain ⟨k1, v1⟩ := e
    intro h
    by_cases he : k1 = k
    · subst he
      simp [dget] at h
      simp [dset, h]
    · simp only [dget, if_neg he] at h
      simp [dset, he, ih h]

theorem ddel_dset_of_none {K V : Type} [DecidableEq K] (m : List (K × V)) (k : K) (v : V) :
    dget m k = none → ddel (dset m k v) k = m := by
  induction m with
  | nil => intro _; simp [dset, ddel]
  | cons e es ih =>
    obtain ⟨k1, v1⟩ := e
    intro h
    by_cases he : k1 = k
    · simp [dget, he] at h
    · simp only [dget, if_neg he] at h
      simp [dset, he, ddel, ih h]

theorem dget_eq_none_iff {K V : Type} [DecidableEq K] (m : List (K × V)) (k : K) :
    dget m k = none ↔ k ∉ m.map Prod.fst := by
  induction m with
  | nil => simp [dget]
  | cons e es ih =>
    obtain ⟨k1, v1⟩ := e
    by_cases he : k1 = k
    · subst he
      simp [dget]
    · simp only [dget, if_neg he, List.map_cons, List.mem_cons]
      rw [ih]
      constructor
      · intro h hor
        rcases hor with hk | hk
        · exact he hk.symm
        · exact h hk
      · intro h hmem
        exact h (Or.inr hmem)

theorem foldl_pyDedup_mem {α : Type} [DecidableEq α] (l : List α) (x : α) :
    ∀ acc : List α,
      (x ∈ l.foldl (fun acc y => if y ∈ acc then acc else acc ++ [y]) acc ↔
        x ∈ acc ∨ x ∈ l) := by
  induction l with
  | nil => intro acc; simp
  | cons y ys ih =>
    intro acc
    by_cases hy : y ∈ acc
    · rw [List.foldl_cons, if_pos hy, ih acc]
      simp only [List.mem_cons]
      constructor
      · rintro (h | h)
        · exact Or.inl h
        · exact Or.inr (Or.inr h)
      · rintro (h | h | h)
        · exact Or.inl h
        · subst h; exact Or.inl hy
        · exact Or.inr h
    · rw [List.foldl_cons, if_neg hy, ih (acc ++ [y])]
      simp only [List.mem_append, List.mem_singleton, List.mem_cons]
      tauto

theorem mem_pyDedup {α : Type} [DecidableEq α] (l : List α) (x : α) :
    x ∈ pyDedup l ↔ x ∈ l := by
  unfold pyDedup
  rw [foldl_pyDedup_mem]
  simp

theorem mem_time_keys (tt : List Slot) (d : String) (i : Int) :
    (d, i) ∈ time_keys tt ↔ ∃ s ∈ tt, s.day = d ∧ s.slot = i := by
  unfold time_keys
  rw [mem_pyDedup]
  simp [List.mem_map, Prod.mk.injEq]

theorem mem_teacher_names_at (tt : List Slot) (d : String) (i : Int) (t : String) :
    t ∈ teacher_names_at tt d i ↔
      ¬(t = "" ∨ t = "TBA") ∧ ∃ s ∈ slots_at tt d i, s.teacher = t := by
  unfold teacher_names_at
  rw [mem_pyDedup, List.mem_filter, List.mem_map]
  simp only [decide_eq_true_eq]
  tauto

theorem mem_room_names_at (tt : List Slot) (d : String) (i : Int) (r : String) :
    r ∈ room_names_at tt d i ↔
      ¬(r = "" ∨ r = "TBA") ∧ ∃ s ∈ slots_at tt d i, s.room = r := by
  unfold room_names_at
  rw [mem_pyDedup, List.mem_filter, List.mem_map]
  simp only [decide_eq_true_eq]
  tauto

theorem teacher_slots_filter (tt : List Slot) (d : String) (i : Int) (t : String) :
    teacher_slots_at tt d i t =
      tt.filter (fun s => s.day = d ∧ s.slot = i ∧ s.teacher = t) := by
  unfold teacher_slots_at slots_at
  rw [List.filter_filter]
  apply List.filter_congr
  intro s _
  by_cases h1 : s.day = d <;> by_cases h2 : s.slot = i <;>
    by_cases h3 : s.teacher = t <;> simp [h1, h2, h3]

theorem room_slots_filter (tt : List Slot) (d : String) (i : Int) (r : String) :
    room_slots_at tt d i r =
      tt.filter (fun s => s.day = d ∧ s.slot = i ∧ s.room = r) := by
  unfold room_slots_at slots_at
  rw [List.filter_filter]
  apply List.filter_congr
  intro s _
  by_cases h1 : s.day = d <;> by_cases h2 : s.slot = i <;>
    by_cases h3 : s.room = r <;> simp [h1, h2, h3]

theorem mem_teacher_overlap_violations (tt : List Slot) (t d : String) (i : Int) :
    (t, d, i) ∈ teacher_overlap_violations tt ↔
      ¬(t = "" ∨ t = "TBA") ∧
        1 < (tt.filter (fun s => s.day = d ∧ s.slot = i ∧ s.teacher = t)).length := by
  unfold teacher_overlap_violations
  rw [List.mem_flatMap]
  constructor
  · rintro ⟨k, hk, hin⟩
    rw [List.mem_map] at hin
    obtain ⟨t2, ht2, heq⟩ := hin
    rw [Prod.ext_iff] at heq
    obtain ⟨h1, heq2⟩ := heq
    rw [Prod.ext_iff] at heq2
    obtain ⟨h2, h3⟩ := heq2
    subst h1; subst h2; subst h3
    rw [List.mem_filter] at ht2
    obtain ⟨hnames, hlen⟩ := ht2
    rw [mem_teacher_names_at] at hnames
    refine ⟨hnames.1, ?_⟩
    have := of_decide_eq_true hlen
    rwa [teacher_slots_filter] at this
  · rintro ⟨hfal, hlen⟩
    obtain ⟨s, hs⟩ := List.exists_mem_of_length_pos (Nat.lt_of_lt_of_le Nat.zero_lt_one
      (Nat.le_of_lt hlen))
    rw [List.mem_filter] at hs
    obtain ⟨hstt, hsp⟩ := hs
    have hsp2 := of_decide_eq_true hsp
    refine ⟨(d, i), ?_, ?_⟩
    · rw [mem_time_keys]
      exact ⟨s, hstt, hsp2.1, hsp2.2.1⟩
    · rw [List.mem_map]
      refine ⟨t, ?_, rfl⟩
      rw [List.mem_filter]
      constructor
      · rw [mem_teacher_names_at]
        refine ⟨hfal, s, ?_, hsp2.2.2⟩
        rw [slots_at, List.mem_filter]
        exact ⟨hstt, by simp [hsp2.1, hsp2.2.1]⟩
      · rw [teacher_slots_filter]
        exact decide_eq_true hlen

theorem mem_room_overlap_violations (tt : List Slot) (r d : String) (i : Int) :
    (r, d, i) ∈ room_overlap_violations tt ↔
      ¬(r = "" ∨ r = "TBA") ∧
        1 < (tt.filter (fun s => s.day = d ∧ s.slot = i ∧ s.room = r)).length := by
  unfold room_overlap_violations
  rw [List.mem_flatMap]
  constructor
  · rintro ⟨k, hk, hin⟩
    rw [List.mem_map] at hin
    obtain ⟨r2, hr2, heq⟩ := hin
    rw [Prod.ext_iff] at heq
    obtain ⟨h1, heq2⟩ := heq
    rw [Prod.ext_iff] at heq2
    obtain ⟨h2, h3⟩ := heq2
    subst h1; subst h2; subst h3
    rw [List.mem_filter] at hr2
    obtain ⟨hnames, hlen⟩ := hr2
    rw [mem_room_names_at] at hnames
    refine ⟨hnames.1, ?_⟩
    have := of_decide_eq_true hlen
    rwa [room_slots_filter] at this
  · rintro ⟨hfal, hlen⟩
    obtain ⟨s, hs⟩ := List.exists_mem_of_length_pos (Nat.lt_of_lt_of_le Nat.zero_lt_one
      (Nat.le_of_lt hlen))
    rw [List.mem_filter] at hs
    obtain ⟨hstt, hsp⟩ := hs
    have hsp2 := of_decide_eq_true hsp
    refine ⟨(d, i), ?_, ?_⟩
    · rw [mem_time_keys]
      exact ⟨s, hstt, hsp2.1, hsp2.2.1⟩
    · rw [List.mem_map]
      refine ⟨r, ?_, rfl⟩
      rw [List.mem_filter]
      constructor
      · rw [mem_room_names_at]
        refine ⟨hfal, s, ?_, hsp2.2.2⟩
        rw [slots_at, List.mem_filter]
        exact ⟨hstt, by simp [hsp2.1, hsp2.2.1]⟩
      · rw [room_slots_filter]
        exact decide_eq_true hlen

/- ------------------------------------------------------------------ -/
/- Claims C1 and C5                                                    -/
/- ------------------------------------------------------------------ -/

/-- Claim C1, counterexample: two LAB-kind slots for different batches of the
same cohort SE-A at the same (day, slot) sharing teacher T1 — the situation
the claim calls the sanctioned parallel-lab exception — are reported by
TeacherNonOverlapConstraint.check as a violation, so the check has no such
exception. -/
theorem teacher_overlap_flags_parallel_labs :
    teacher_overlap_violations ttTeacherLabs = [("T1", "Monday", 3)] := by
  decide

/-- Claim C1, amended: TeacherNonOverlapConstraint.check reports a violation
for (teacher, day, slot) exactly when that teacher name — other than the
falsy empty name and the "TBA" sentinel — occupies more than one slot at that
(day, slot), with no parallel-lab exception; it reports no violation exactly
when every such teacher occupies at most one slot per (day, slot). -/
theorem teacher_nonoverlap_exact (tt : List Slot) :
    (∀ t d i, (t, d, i) ∈ teacher_overlap_violations tt ↔
      (¬(t = "" ∨ t = "TBA") ∧
        1 < (tt.filter (fun s => s.day = d ∧ s.slot = i ∧ s.teacher = t)).length))
  ∧ (teacher_check_valid tt = true ↔
      ∀ t d i, ¬(t = "" ∨ t = "TBA") →
        (tt.filter (fun s => s.day = d ∧ s.slot = i ∧ s.teacher = t)).length ≤ 1) := by
  refine ⟨mem_teacher_overlap_violations tt, ?_⟩
  unfold teacher_check_valid
  rw [decide_eq_true_eq, List.eq_nil_iff_forall_not_mem]
  constructor
  · intro hvalid t d i hfal
    by_contra hlt
    exact hvalid (t, d, i)
      ((mem_teacher_overlap_violations tt t d i).mpr ⟨hfal, Nat.lt_of_not_le hlt⟩)
  · rintro hall ⟨t, d, i⟩ hmem2
    rw [mem_teacher_overlap_violations] at hmem2
    exact Nat.not_le.mpr hmem2.2 (hall t d i hmem2.1)

/-- Claim C5, counterexample: two LAB-kind slots for different batches of the
same cohort SE-A at the same (day, slot) sharing room Lab1 are reported by
RoomNonOverlapConstraint.check as a violation, so the check has no
parallel-lab exception. -/
theorem room_overlap_flags_parallel_labs :
    room_overlap_violations ttRoomLabs = [("Lab1", "Monday", 3)] := by
  decide

/-- Claim C5, amended: RoomNonOverlapConstraint.check reports a violation for
(room, day, slot) exactly when that room name — other than the falsy empty
name and the "TBA" sentinel — hosts more than one slot at that (day, slot),
with no parallel-lab exception; it reports no violation exactly when every
such room hosts at most one slot per (day, slot). -/
theorem room_nonoverlap_exact (tt : List Slot) :
    (∀ r d i, (r, d, i) ∈ room_overlap_violations tt ↔
      (¬(r = "" ∨ r = "TBA") ∧
        1 < (tt.filter (fun s => s.day = d ∧ s.slot = i ∧ s.room = r)).length))
  ∧ (room_check_valid tt = true ↔
      ∀ r d i, ¬(r = "" ∨ r = "TBA") →
        (tt.filter (fun s => s.day = d ∧ s.slot = i ∧ s.room = r)).length ≤ 1) := by
  refine ⟨mem_room_overlap_violations tt, ?_⟩
  unfold room_check_valid
  rw [decide_eq_true_eq, List.eq_nil_iff_forall_not_mem]
  constructor
  · intro hvalid r d i hfal
    by_contra hlt
    exact hvalid (r, d, i)
      ((mem_room_overlap_violations tt r d i).mpr ⟨hfal, Nat.lt_of_not_le hlt⟩)
  · rintro hall ⟨r, d, i⟩ hmem2
    rw [mem_room_overlap_violations] at hmem2
    exact Nat.not_le.mpr hmem2.2 (hall r d i hmem2.1)

/- ------------------------------------------------------------------ -/
/- Claim C4                                                            -/
/- ------------------------------------------------------------------ -/

theorem required_nonzero_mem (ctx : Context) (k : String × String × String)
    (h : required_lectures ctx k ≠ 0) :
    k ∈ (required_lectures_map ctx).map (fun e => e.1) := by
  by_contra hnot
  have : dget (required_lectures_map ctx) k = none :=
    (dget_eq_none_iff (required_lectures_map ctx) k).mpr hnot
  unfold required_lectures at h
  rw [this] at h
  simp at h

theorem actual_nonzero_mem (tt : List Slot) (k : String × String × String)
    (h : actual_lectures tt k ≠ 0) :
    ∃ s ∈ tt.filter counts_as_lecture, (s.subject, s.year, s.division) = k := by
  unfold actual_lectures at h
  rw [Int.natCast_ne_zero] at h
  have hpos := Nat.pos_of_ne_zero h
  rw [List.countP_pos_iff] at hpos
  obtain ⟨s, hs, hp⟩ := hpos
  exact ⟨s, hs, of_decide_eq_true hp⟩

theorem mem_weekly_violation_keys (ctx : Context) (tt : List Slot)
    (k : String × String × String) :
    k ∈ weekly_violation_keys ctx tt ↔
      ¬(required_lectures ctx k = actual_lectures tt k) := by
  unfold weekly_violation_keys
  rw [List.mem_filter]
  constructor
  · rintro ⟨_, hp⟩
    exact of_decide_eq_true hp
  · intro hne
    refine ⟨?_, decide_eq_true hne⟩
    unfold weekly_keys
    rw [mem_pyDedup, List.mem_append]
    by_cases hr : required_lectures ctx k = 0
    · right
      have ha : actual_lectures tt k ≠ 0 := by
        intro h0
        exact hne (by rw [hr, h0])
      obtain ⟨s, hs, hk⟩ := actual_nonzero_mem tt k ha
      rw [List.mem_map]
      exact ⟨s, hs, hk⟩
    · left
      exact required_nonzero_mem ctx k hr

/-- Claim C4: WeeklyLectureCompletionConstraint.check reports zero violations
exactly when, for every (subject, year, division) key, the actual counted
theory-session count equals the required count derived from the configuration
(weekly count, multiplied by the year's lab-batch count for practicals), and
every key with a differing count — below or above — is reported. -/
theorem weekly_completion_exact (ctx : Context) (tt : List Slot) :
    (weekly_check_valid ctx tt = true ↔
      ∀ k, required_lectures ctx k = actual_lectures tt k)
  ∧ ∀ k, k ∈ weekly_violation_keys ctx tt ↔
      ¬(required_lectures ctx k = actual_lectures tt k) := by
  refine ⟨?_, mem_weekly_violation_keys ctx tt⟩
  unfold weekly_check_valid
  rw [decide_eq_true_eq, List.eq_nil_iff_forall_not_mem]
  constructor
  · intro hvalid k
    by_contra hne
    exact hvalid k ((mem_weekly_violation_keys ctx tt k).mpr hne)
  · intro hall k hmem2
    exact (mem_weekly_violation_keys ctx tt k).mp hmem2 (hall k)

/- ------------------------------------------------------------------ -/
/- Claim C2                                                            -/
/- ------------------------------------------------------------------ -/

theorem erase_appended {α : Type} [DecidableEq α] (l : List α) (a : α) (hl : a ∉ l) :
    (l ++ [a]).erase a = l := by
  rw [List.erase_append_right _ hl, List.erase_cons_head]
  simp

/-- Claim C2, counterexample: starting from a state whose slot key already
holds the first parallel lab batch, assigning the second batch and rolling it
straight back deletes the whole grid entry, so the slot grid is not restored:
the first batch's assignment disappears from the grid. -/
theorem assign_rollback_loses_parallel_batch :
    (rollback_slot (assign_slot stateOneBatch labB2 false) labB2).slot_grid ≠
      stateOneBatch.slot_grid ∧
    dget (rollback_slot (assign_slot stateOneBatch labB2 false) labB2).slot_grid
      (slot_key labB1) = none ∧
    dget stateOneBatch.slot_grid (slot_key labB1) = some (GridVal.single labB1) := by
  decide

/-- Claim C2, amended: assign_slot followed immediately by rollback_slot of
the same assignment restores the slot grid, the teacher-occupancy index, the
room-occupancy index and the subject-fulfilled-count index exactly, provided
the slot key held no prior assignment (the parallel-lab multi-batch case is
exactly where this fails: rollback deletes the whole grid entry), the
assignment is not already recorded under its teacher / room occupancy key
(with non-degenerate entries), and the subject count entry, if present, is
positive with a truthy subject. -/
theorem assign_rollback_restores (st : TimetableState) (a : Slot) (lock : Bool)
    (hgrid : dget st.slot_grid (slot_key a) = none)
    (hteach : occ_ok a (dget st.teacher_assignments (teacher_key a)) = true)
    (hroom : occ_ok a (dget st.room_assignments (room_key a)) = true)
    (hsubj : cnt_ok a.subject (dget st.subject_counts (subject_key a)) = true) :
    (rollback_slot (assign_slot st a lock) a).slot_grid = st.slot_grid ∧
    (rollback_slot (assign_slot st a lock) a).teacher_assignments =
      st.teacher_assignments ∧
    (rollback_slot (assign_slot st a lock) a).room_assignments =
      st.room_assignments ∧
    (rollback_slot (assign_slot st a lock) a).subject_counts = st.subject_counts := by
  refine ⟨?_, ?_, ?_, ?_⟩
  · -- slot grid
    simp only [assign_slot, rollback_slot, hgrid]
    rw [dget_dset_self]
    simp [ddel_dset_of_none _ _ _ hgrid]
  · -- teacher-occupancy index
    simp only [assign_slot, rollback_slot]
    by_cases ht : a.teacher = ""
    · simp only [ht, ne_eq, not_true_eq_false, if_false]
      cases hcase : dget st.teacher_assignments (teacher_key a) with
      | none => simp [hcase]
      | some l =>
        rw [occ_ok.eq_def, hcase] at hteach
        simp only [decide_eq_true_eq] at hteach
        simp [hcase, hteach.1, dset_self_of_dget _ _ _ hcase]
        exact fun h => absurd h hteach.2
    · simp only [ht, ne_eq, not_false_eq_true, if_true]
      cases hcase : dget st.teacher_assignments (teacher_key a) with
      | none =>
        simp only [hcase, Option.getD_none, List.nil_append]
        rw [dget_dset_self]
        simp [ddel_dset_of_none _ _ _ hcase]
      | some l =>
        rw [occ_ok.eq_def, hcase] at hteach
        simp only [decide_eq_true_eq] at hteach
        simp only [hcase, Option.getD_some]
        rw [dget_dset_self]
        simp only [List.mem_append, List.mem_singleton, or_true, if_true,
          erase_appended l a hteach.1, hteach.2, if_neg hteach.2]
        rw [dset_dset, dset_self_of_dget _ _ _ hcase]
        simp
  · -- room-occupancy index
    simp only [assign_slot, rollback_slot]
    by_cases hr : a.room = ""
    · simp only [hr, ne_eq, not_true_eq_false, if_false]
      cases hcase : dget st.room_assignments (room_key a) with
      | none => simp [hcase]
      | some l =>
        rw [occ_ok.eq_def, hcase] at hroom
        simp only [decide_eq_true_eq] at hroom
        simp [hcase, hroom.1, dset_self_of_dget _ _ _ hcase]
        exact fun h => absurd h hroom.2
    · simp only [hr, ne_eq, not_false_eq_true, if_true]
      cases hcase : dget st.room_assignments (room_key a) with
      | none =>
        simp only [hcase, Option.getD_none, List.nil_append]
        rw [dget_dset_self]
        simp [ddel_dset_of_none _ _ _ hcase]
      | some l =>
        rw [occ_ok.eq_def, hcase] at hroom
        simp only [decide_eq_true_eq] at hroom
        simp only [hcase, Option.getD_some]
        rw [dget_dset_self]
        simp only [List.mem_append, List.mem_singleton, or_true, if_true,
          erase_appended l a hroom.1, hroom.2, if_neg hroom.2]
        rw [dset_dset, dset_self_of_dget _ _ _ hcase]
        simp
  · -- subject-fulfilled-count index
    simp only [assign_slot, rollback_slot]
    by_cases hs : a.subject = ""
    · simp only [hs, ne_eq, not_true_eq_false, if_false]
      cases hcase : dget st.subject_counts (subject_key a) with
      | none => simp [hcase]
      | some c =>
        rw [cnt_ok.eq_def, hcase] at hsubj
        simp only [decide_eq_true_eq] at hsubj
        exact absurd hs hsubj.2
    · simp only [hs, ne_eq, not_false_eq_true, if_true]
      cases hcase : dget st.subject_counts (subject_key a) with
      | none =>
        simp only [hcase, Option.getD_none, Int.zero_add]
        rw [dget_dset_self]
        norm_num
        exact ddel_dset_of_none _ _ _ hcase
      | some c =>
        rw [cnt_ok.eq_def, hcase] at hsubj
        simp only [decide_eq_true_eq] at hsubj
        simp only [hcase, Option.getD_some]
        rw [dget_dset_self]
        have hc : ¬(c + 1 - 1 ≤ 0) := by omega
        simp only [hc, if_false]
        have hc2 : c + 1 - 1 = c := by omega
        rw [hc2, dset_dset, dset_self_of_dget _ _ _ hcase]

/-- Claim C2, witness: a concrete instantiation of the restore theorem — a
fresh theory assignment on the one-batch state — with all side conditions
checked by evaluation. -/
theorem assign_rollback_restores_witness :
    (dget stateOneBatch.slot_grid (slot_key thFresh) = none ∧
     occ_ok thFresh (dget stateOneBatch.teacher_assignments (teacher_key thFresh)) = true ∧
     occ_ok thFresh (dget stateOneBatch.room_assignments (room_key thFresh)) = true ∧
     cnt_ok thFresh.subject (dget stateOneBatch.subject_counts (subject_key thFresh)) = true) ∧
    (rollback_slot (assign_slot stateOneBatch thFresh false) thFresh).slot_grid =
      stateOneBatch.slot_grid ∧
    (rollback_slot (assign_slot stateOneBatch thFresh false) thFresh).teacher_assignments =
      stateOneBatch.teacher_assignments ∧
    (rollback_slot (assign_slot stateOneBatch thFresh false) thFresh).room_assignments =
      stateOneBatch.room_assignments ∧
    (rollback_slot (assign_slot stateOneBatch thFresh false) thFresh).subject_counts =
      stateOneBatch.subject_counts :=
  ⟨⟨by decide, by decide, by decide, by decide⟩,
    assign_rollback_restores stateOneBatch thFresh false
      (by decide) (by decide) (by decide) (by decide)⟩

/- ------------------------------------------------------------------ -/
/- Claims C3 and C6                                                    -/
/- ------------------------------------------------------------------ -/

theorem optimize_step_preserves (ctx : Context) (ss : SoftScores)
    (rnd : Nat → Nat × Nat) (i : Nat) (st : OptimState)
    (h : validate_timetable_valid ctx st.current = true ∧
      validate_timetable_valid ctx st.best = true) :
    validate_timetable_valid ctx (optimize_step ctx ss rnd st i).current = true ∧
    validate_timetable_valid ctx (optimize_step ctx ss rnd st i).best = true := by
  unfold optimize_step
  cases hg : gen_neighbor st.current (rnd i) with
  | none => exact h
  | some nb =>
    by_cases hv : validate_timetable_valid ctx nb = true
    · simp only [hv, if_true]
      by_cases h1 : st.current_score < validate_quality_score ss nb
      · by_cases h2 : st.best_score < validate_quality_score ss nb
        · simp [h1, h2, hv]
        · simp [h1, h2, hv, h.2]
      · by_cases h3 : 20 ≤ st.stuck + 1
        · simp [h1, h3, h.2]
        · simp [h1, h3, h.1, h.2]
    · rw [Bool.not_eq_true] at hv
      simp [hv, h.1, h.2]

theorem optimize_run_valid (ctx : Context) (ss : SoftScores) (rnd : Nat → Nat × Nat)
    (tt : List Slot) (N : Nat) (h : validate_timetable_valid ctx tt = true) :
    validate_timetable_valid ctx (optimize_run ctx ss rnd tt N).current = true ∧
    validate_timetable_valid ctx (optimize_run ctx ss rnd tt N).best = true := by
  unfold optimize_run
  induction N with
  | zero => exact ⟨h, h⟩
  | succ n ih =>
    rw [List.range_succ, List.foldl_append, List.foldl_cons, List.foldl_nil]
    exact optimize_step_preserves ctx ss rnd n _ ih

/-- Claim C3: for every input timetable passing the hard-constraint
validation, every iteration bound, every score assignment of the (float
based, hence abstracted) soft constraints and every random-choice oracle,
the optimizer returns a timetable that also passes hard-constraint
validation: invalid swaps are skipped and only validated neighbors are ever
adopted as current or best. -/
theorem optimizer_preserves_hard_validity (ctx : Context) (ss : SoftScores)
    (rnd : Nat → Nat × Nat) (tt : List Slot) (N : Nat)
    (h : validate_timetable_valid ctx tt = true) :
    validate_timetable_valid ctx (optimize ctx ss rnd tt N) = true := by
  unfold optimize
  by_cases he : tt = []
  · simp only [he, if_true]
    exact he ▸ h
  · simp only [he, if_false]
    exact (optimize_run_valid ctx ss rnd tt N h).2

/-- Claim C3, witness: the validity-preservation theorem applied to a
concrete valid one-slot timetable, no soft constraints, a constant oracle and
three iterations. -/
theorem optimizer_preserves_hard_validity_witness :
    validate_timetable_valid ctxOpt ttOpt = true ∧
    validate_timetable_valid ctxOpt
      (optimize ctxOpt ([] : SoftScores) (fun _ => (0, 0)) ttOpt 3) = true :=
  ⟨by decide,
    optimizer_preserves_hard_validity ctxOpt ([] : SoftScores) (fun _ => (0, 0)) ttOpt 3
      (by decide)⟩

theorem optimize_step_best_mono (ctx : Context) (ss : SoftScores)
    (rnd : Nat → Nat × Nat) (i : Nat) (st : OptimState) :
    st.best_score ≤ (optimize_step ctx ss rnd st i).best_score := by
  unfold optimize_step
  cases hg : gen_neighbor st.current (rnd i) with
  | none => exact le_refl _
  | some nb =>
    by_cases hv : validate_timetable_valid ctx nb = true
    · simp only [hv, if_true]
      by_cases h1 : st.current_score < validate_quality_score ss nb
      · by_cases h2 : st.best_score < validate_quality_score ss nb
        · simp only [h1, h2, if_true]
          simp
          exact le_of_lt h2
        · simp [h1, h2]
      · by_cases h3 : 20 ≤ st.stuck + 1
        · simp [h1, h3]
        · simp [h1, h3]
    · rw [Bool.not_eq_true] at hv
      simp [hv]

/-- Claim C6: the optimizer returns the best timetable ever observed (the
empty timetable aside), the best-known quality score after any number of
iterations is at least the quality score computed for the input before
optimization, and it never decreases from one iteration to the next — for
every score assignment of the soft constraints and every random oracle. -/
theorem optimizer_returns_best_monotone (ctx : Context) (ss : SoftScores)
    (rnd : Nat → Nat × Nat) (tt : List Slot) (N : Nat) :
    optimize ctx ss rnd tt N =
      (if tt = [] then tt else (optimize_run ctx ss rnd tt N).best) ∧
    compute_quality_score ss tt ≤ (optimize_run ctx ss rnd tt N).best_score ∧
    (optimize_run ctx ss rnd tt N).best_score ≤
      (optimize_run ctx ss rnd tt (N + 1)).best_score := by
  refine ⟨rfl, ?_, ?_⟩
  · unfold optimize_run
    induction N with
    | zero => simp
    | succ n ih =>
      rw [List.range_succ, List.foldl_append, List.foldl_cons, List.foldl_nil]
      exact le_trans ih (optimize_step_best_mono ctx ss rnd n _)
  · unfold optimize_run
    rw [List.range_succ, List.foldl_append, List.foldl_cons, List.foldl_nil]
    exact optimize_step_best_mono ctx ss rnd N _

/- ------------------------------------------------------------------ -/
/- Claim C7                                                            -/
/- ------------------------------------------------------------------ -/

theorem shortfall_aux (ctx : Context) (l : List String)
    (hex : ∃ y ∈ l, shared_lab_count ctx < year_batches ctx y) :
    ∃ y, y ∈ l ∧ shared_lab_count ctx < year_batches ctx y ∧
      l.findSome? (fun year =>
        let nb := year_batches ctx year
        if nb > shared_lab_count ctx then some (year, nb) else none) =
        some (y, year_batches ctx y) := by
  induction l with
  | nil => simp at hex
  | cons x xs ih =>
    rw [List.findSome?_cons]
    by_cases hp : shared_lab_count ctx < year_batches ctx x
    · refine ⟨x, List.mem_cons_self x xs, hp, ?_⟩
      simp only [if_pos hp]
    · obtain ⟨y, hy, hlt⟩ := hex
      have hyxs : y ∈ xs := by
        rcases List.mem_cons.mp hy with h | h
        · exact absurd (h ▸ hlt) hp
        · exact h
      obtain ⟨z, hz, hzlt, hfind⟩ := ih ⟨y, hyxs, hlt⟩
      refine ⟨z, List.mem_cons_of_mem x hz, hzlt, ?_⟩
      simp only [if_neg hp]
      exact hfind

/-- Claim C7: with a non-empty subject list and a passing time check, a year
whose configured parallel-batch count exceeds the shared-lab count makes
FeasibilityVerifier.verify return an invalid result whose reason names such a
year and whose details state its batch count and the lab count; the teacher
check is never consulted. -/
theorem feasibility_rejects_lab_shortfall (ctx : Context)
    (hsub : ctx.smartInputData.subjects ≠ [])
    (htime : check_time_feasibility ctx = FeasOutcome.feasible)
    (hex : ∃ y ∈ ctx.branchData.academicYears,
      shared_lab_count ctx < year_batches ctx y) :
    ∃ y, y ∈ ctx.branchData.academicYears ∧
      shared_lab_count ctx < year_batches ctx y ∧
      feasibility_verify ctx =
        FeasOutcome.infeasible (lab_fail_reason y)
          (lab_fail_details ctx y (year_batches ctx y)) := by
  obtain ⟨y, hy, hlt, hfind⟩ := shortfall_aux ctx ctx.branchData.academicYears hex
  have hf : first_lab_shortfall ctx = some (y, year_batches ctx y) := hfind
  refine ⟨y, hy, hlt, ?_⟩
  unfold feasibility_verify
  rw [if_neg hsub, htime]
  unfold check_lab_feasibility
  rw [hf]

/-- Claim C7, witness: the SE-with-3-batches-but-2-labs scenario of the spec,
with all hypotheses checked by evaluation. -/
theorem feasibility_rejects_lab_shortfall_witness :
    (ctxFeas.smartInputData.subjects ≠ [] ∧
     check_time_feasibility ctxFeas = FeasOutcome.feasible ∧
     ∃ y ∈ ctxFeas.branchData.academicYears,
       shared_lab_count ctxFeas < year_batches ctxFeas y) ∧
    ∃ y, y ∈ ctxFeas.branchData.academicYears ∧
      shared_lab_count ctxFeas < year_batches ctxFeas y ∧
      feasibility_verify ctxFeas =
        FeasOutcome.infeasible (lab_fail_reason y)
          (lab_fail_details ctxFeas y (year_batches ctxFeas y)) :=
  ⟨⟨by decide, by decide, by decide⟩,
   feasibility_rejects_lab_shortfall ctxFeas (by decide) (by decide) (by decide)⟩

/- ------------------------------------------------------------------ -/
/- Claim C8                                                            -/
/- ------------------------------------------------------------------ -/

theorem lab_flags_shift (labs : List String) (mapping : List (String × List String))
    (bd : BranchData) (year division : String) (lab_subjects : List SubjectRec) :
    ∀ (bps : List (Nat × String)) (st : TimetableState) (fl : List Bool),
      (bps.foldl (fun (acc : List Bool × TimetableState) bp =>
        let rotation := bp.1 % lab_subjects.length
        let br := batch_run labs mapping bd acc.2 year division bp.2
          (rotate_list lab_subjects rotation) 2
        (acc.1 ++ [decide (br.1 = lab_subjects.length)], br.2)) (fl, st)).1 =
      fl ++ (bps.foldl (fun (acc : List Bool × TimetableState) bp =>
        let rotation := bp.1 % lab_subjects.length
        let br := batch_run labs mapping bd acc.2 year division bp.2
          (rotate_list lab_subjects rotation) 2
        (acc.1 ++ [decide (br.1 = lab_subjects.length)], br.2)) ([], st)).1 ∧
      (bps.foldl (fun (acc : List Bool × TimetableState) bp =>
        let rotation := bp.1 % lab_subjects.length
        let br := batch_run labs mapping bd acc.2 year division bp.2
          (rotate_list lab_subjects rotation) 2
        (acc.1 ++ [decide (br.1 = lab_subjects.length)], br.2)) (fl, st)).2 =
      (bps.foldl (fun (acc : List Bool × TimetableState) bp =>
        let rotation := bp.1 % lab_subjects.length
        let br := batch_run labs mapping bd acc.2 year division bp.2
          (rotate_list lab_subjects rotation) 2
        (acc.1 ++ [decide (br.1 = lab_subjects.length)], br.2)) ([], st)).2 := by
  intro bps
  induction bps with
  | nil => intro st fl; simp
  | cons bp bps ih =>
    intro st fl
    simp only [List.foldl_cons, List.nil_append]
    obtain ⟨ha, hb⟩ := ih
      (batch_run labs mapping bd st year division bp.2
        (rotate_list lab_subjects (bp.1 % lab_subjects.length)) 2).2
      (fl ++ [decide ((batch_run labs mapping bd st year division bp.2
        (rotate_list lab_subjects (bp.1 % lab_subjects.length)) 2).1 =
          lab_subjects.length)])
    obtain ⟨hc, hd⟩ := ih
      (batch_run labs mapping bd st year division bp.2
        (rotate_list lab_subjects (bp.1 % lab_subjects.length)) 2).2
      [decide ((batch_run labs mapping bd st year division bp.2
        (rotate_list lab_subjects (bp.1 % lab_subjects.length)) 2).1 =
          lab_subjects.length)]
    constructor
    · rw [ha, hc, List.append_assoc]
    · rw [hb, hd]

theorem lab_count_eq (labs : List String) (mapping : List (String × List String))
    (bd : BranchData) (year division : String) (lab_subjects : List SubjectRec) :
    ∀ (bps : List (Nat × String)) (st : TimetableState) (c : Nat),
      (bps.foldl (fun (acc : Nat × TimetableState) bp =>
        let rotation := bp.1 % lab_subjects.length
        let br := batch_run labs mapping bd acc.2 year division bp.2
          (rotate_list lab_subjects rotation) 2
        (if br.1 = lab_subjects.length then acc.1 + 1 else acc.1, br.2)) (c, st)).1 =
      c + ((bps.foldl (fun (acc : List Bool × TimetableState) bp =>
        let rotation := bp.1 % lab_subjects.length
        let br := batch_run labs mapping bd acc.2 year division bp.2
          (rotate_list lab_subjects rotation) 2
        (acc.1 ++ [decide (br.1 = lab_subjects.length)], br.2)) ([], st)).1.countP
          (fun b => b)) := by
  intro bps
  induction bps with
  | nil => intro st c; simp
  | cons bp bps ih =>
    intro st c
    simp only [List.foldl_cons, List.nil_append]
    rw [ih
      (batch_run labs mapping bd st year division bp.2
        (rotate_list lab_subjects (bp.1 % lab_subjects.length)) 2).2
      (if (batch_run labs mapping bd st year division bp.2
        (rotate_list lab_subjects (bp.1 % lab_subjects.length)) 2).1 =
          lab_subjects.length then c + 1 else c)]
    rw [(lab_flags_shift labs mapping bd year division lab_subjects bps
      (batch_run labs mapping bd st year division bp.2
        (rotate_list lab_subjects (bp.1 % lab_subjects.length)) 2).2
      [decide ((batch_run labs mapping bd st year division bp.2
        (rotate_list lab_subjects (bp.1 % lab_subjects.length)) 2).1 =
          lab_subjects.length)]).1]
    rw [List.countP_append]
    by_cases hp : (batch_run labs mapping bd st year division bp.2
        (rotate_list lab_subjects (bp.1 % lab_subjects.length)) 2).1 =
          lab_subjects.length
    · simp [hp]
      omega
    · simp [hp]

/-- Claim C8: when a cohort has required lab subjects, schedule_class_labs
raises the RuntimeError exactly when no batch completed its full lab
requirement, and returns normally whenever at least one batch completed all
required lab subjects (partial completion across batches tolerated). -/
theorem schedule_class_labs_hard_failure (ctx : Context) (st : TimetableState)
    (year division : String) (hlabs : lab_subjects_of ctx year ≠ []) :
    ((∃ msg, schedule_class_labs ctx st year division = Except.error msg) ↔
      ∀ b ∈ batch_completion_flags ctx st year division, b = false)
  ∧ ((∃ b ∈ batch_completion_flags ctx st year division, b = true) →
      ∃ v, schedule_class_labs ctx st year division = Except.ok v) := by
  unfold schedule_class_labs batch_completion_flags
  rw [if_neg hlabs]
  simp only []
  rw [lab_count_eq (lab_scheduler_labs ctx.branchData)
    (map_teachers_to_subjects ctx.smartInputData) ctx.branchData year division
    (lab_subjects_of ctx year) (batch_list (year_batches ctx year)) st 0]
  rw [Nat.zero_add]
  constructor
  · constructor
    · intro hmsg
      obtain ⟨msg, hmsg⟩ := hmsg
      by_cases hz : ((batch_list (year_batches ctx year)).foldl
        (fun (acc : List Bool × TimetableState) bp =>
          let rotation := bp.1 % (lab_subjects_of ctx year).length
          let br := batch_run (lab_scheduler_labs ctx.branchData)
            (map_teachers_to_subjects ctx.smartInputData) ctx.branchData acc.2
            year division bp.2 (rotate_list (lab_subjects_of ctx year) rotation) 2
          (acc.1 ++ [decide (br.1 = (lab_subjects_of ctx year).length)], br.2))
          ([], st)).1.countP (fun b => b) = 0
      · intro b hb
        rw [List.countP_eq_zero] at hz
        have := hz b hb
        simpa using this
      · rw [if_neg hz] at hmsg
        exact absurd hmsg (by simp)
    · intro hall
      have hz : ((batch_list (year_batches ctx year)).foldl
        (fun (acc : List Bool × TimetableState) bp =>
          let rotation := bp.1 % (lab_subjects_of ctx year).length
          let br := batch_run (lab_scheduler_labs ctx.branchData)
            (map_teachers_to_subjects ctx.smartInputData) ctx.branchData acc.2
            year division bp.2 (rotate_list (lab_subjects_of ctx year) rotation) 2
          (acc.1 ++ [decide (br.1 = (lab_subjects_of ctx year).length)], br.2))
          ([], st)).1.countP (fun b => b) = 0 := by
        rw [List.countP_eq_zero]
        intro b hb
        simp [hall b hb]
      rw [if_pos hz]
      exact ⟨_, rfl⟩
  · intro hex
    obtain ⟨b, hb, hbt⟩ := hex
    have hz : ¬(((batch_list (year_batches ctx year)).foldl
      (fun (acc : List Bool × TimetableState) bp =>
        let rotation := bp.1 % (lab_subjects_of ctx year).length
        let br := batch_run (lab_scheduler_labs ctx.branchData)
          (map_teachers_to_subjects ctx.smartInputData) ctx.branchData acc.2
          year division bp.2 (rotate_list (lab_subjects_of ctx year) rotation) 2
        (acc.1 ++ [decide (br.1 = (lab_subjects_of ctx year).length)], br.2))
        ([], st)).1.countP (fun b => b) = 0) := by
      rw [List.countP_eq_zero]
      intro hz2
      have := hz2 b hb
      rw [hbt] at this
      simp at this
    rw [if_neg hz]
    exact ⟨_, rfl⟩

/-- Claim C8, witness: on a one-batch, one-lab-subject configuration the only
batch completes its requirement, so schedule_class_labs returns normally. -/
theorem schedule_class_labs_witness :
    lab_subjects_of ctxLab "SE" ≠ [] ∧
    ∃ v, schedule_class_labs ctxLab {} "SE" "A" = Except.ok v :=
  ⟨by decide,
   (schedule_class_labs_hard_failure ctxLab {} "SE" "A" (by decide)).2 (by decide)⟩

/- ------------------------------------------------------------------ -/
/- Claim C9                                                            -/
/- ------------------------------------------------------------------ -/

theorem pick_fold_char (cl tl : String → Int) :
    ∀ (l : List String) (acc : Option (String × Int)),
      ((l.foldl (fun (acc : Option (String × Int)) d =>
          let cld := cl d
          let tld := tl d
          if 7 ≤ cld then acc
          else if 4 ≤ tld then acc
          else
            match acc with
            | none => some (d, cld + tld)
            | some best => if cld + tld < best.2 then some (d, cld + tld) else acc)
          acc = none) ↔
        (acc = none ∧ ∀ d ∈ l, ¬(cl d < 7 ∧ tl d < 4))) ∧
      (∀ d sc, l.foldl (fun (acc : Option (String × Int)) d =>
          let cld := cl d
          let tld := tl d
          if 7 ≤ cld then acc
          else if 4 ≤ tld then acc
          else
            match acc with
            | none => some (d, cld + tld)
            | some best => if cld + tld < best.2 then some (d, cld + tld) else acc)
          acc = some (d, sc) →
        ((acc = some (d, sc)) ∨ (d ∈ l ∧ cl d < 7 ∧ tl d < 4 ∧ sc = cl d + tl d)) ∧
        (∀ d2 ∈ l, cl d2 < 7 → tl d2 < 4 → sc ≤ cl d2 + tl d2) ∧
        (∀ p, acc = some p → sc ≤ p.2)) := by
  intro l
  induction l with
  | nil =>
    intro acc
    constructor
    · simp
    · intro d sc h
      simp only [List.foldl_nil] at h
      refine ⟨Or.inl h, by simp, ?_⟩
      intro p hp
      rw [h] at hp
      cases hp
      exact le_refl _
  | cons d0 l ih =>
    intro acc
    simp only [List.foldl_cons]
    by_cases h7 : 7 ≤ cl d0
    · simp only [if_pos h7]
      obtain ⟨ihn, ihs⟩ := ih acc
      constructor
      · rw [ihn]
        constructor
        · rintro ⟨ha, hall⟩
          refine ⟨ha, ?_⟩
          intro d hd
          rcases List.mem_cons.mp hd with h | h
          · subst h; intro hok; omega
          · exact hall d h
        · rintro ⟨ha, hall⟩
          exact ⟨ha, fun d hd => hall d (List.mem_cons_of_mem d0 hd)⟩
      · intro d sc h
        obtain ⟨hor, hmin, hacc⟩ := ihs d sc h
        refine ⟨?_, ?_, hacc⟩
        · rcases hor with h2 | h2
          · exact Or.inl h2
          · exact Or.inr ⟨List.mem_cons_of_mem d0 h2.1, h2.2⟩
        · intro d2 hd2 hc hl
          rcases List.mem_cons.mp hd2 with h2 | h2
          · subst h2; omega
          · exact hmin d2 h2 hc hl
    · by_cases h4 : 4 ≤ tl d0
      · simp only [if_neg h7, if_pos h4]
        obtain ⟨ihn, ihs⟩ := ih acc
        constructor
        · rw [ihn]
          constructor
          · rintro ⟨ha, hall⟩
            refine ⟨ha, ?_⟩
            intro d hd
            rcases List.mem_cons.mp hd with h | h
            · subst h; intro hok; omega
            · exact hall d h
          · rintro ⟨ha, hall⟩
            exact ⟨ha, fun d hd => hall d (List.mem_cons_of_mem d0 hd)⟩
        · intro d sc h
          obtain ⟨hor, hmin, hacc⟩ := ihs d sc h
          refine ⟨?_, ?_, hacc⟩
          · rcases hor with h2 | h2
            · exact Or.inl h2
            · exact Or.inr ⟨List.mem_cons_of_mem d0 h2.1, h2.2⟩
          · intro d2 hd2 hc hl
            rcases List.mem_cons.mp hd2 with h2 | h2
            · subst h2; omega
            · exact hmin d2 h2 hc hl
      · simp only [if_neg h7, if_neg h4]
        cases acc with
        | none =>
          obtain ⟨ihn, ihs⟩ := ih (some (d0, cl d0 + tl d0))
          constructor
          · rw [ihn]
            simp
            intro hcon
            exact absurd (hcon (by omega)) h4
          · intro d sc h
            obtain ⟨hor, hmin, hacc⟩ := ihs d sc h
            refine ⟨?_, ?_, ?_⟩
            · rcases hor with h2 | h2
              · injection h2 with h2p
                injection h2p with h2a h2b
                subst h2a
                subst h2b
                exact Or.inr ⟨List.mem_cons_self d0 l, by omega, by omega, rfl⟩
              · exact Or.inr ⟨List.mem_cons_of_mem d0 h2.1, h2.2⟩
            · intro d2 hd2 hc hl
              rcases List.mem_cons.mp hd2 with h2 | h2
              · subst h2
                exact hacc (d2, cl d2 + tl d2) rfl
              · exact hmin d2 h2 hc hl
            · intro p hp
              cases hp
        | some best =>
          by_cases hlt : cl d0 + tl d0 < best.2
          · simp only [if_pos hlt]
            obtain ⟨ihn, ihs⟩ := ih (some (d0, cl d0 + tl d0))
            constructor
            · rw [ihn]
              simp
            · intro d sc h
              obtain ⟨hor, hmin, hacc⟩ := ihs d sc h
              refine ⟨?_, ?_, ?_⟩
              · rcases hor with h2 | h2
                · injection h2 with h2p
                  injection h2p with h2a h2b
                  subst h2a
                  subst h2b
                  exact Or.inr ⟨List.mem_cons_self d0 l, by omega, by omega, rfl⟩
                · exact Or.inr ⟨List.mem_cons_of_mem d0 h2.1, h2.2⟩
              · intro d2 hd2 hc hl
                rcases List.mem_cons.mp hd2 with h2 | h2
                · subst h2
                  exact hacc (d2, cl d2 + tl d2) rfl
                · exact hmin d2 h2 hc hl
              · intro p hp
                cases hp
                have := hacc (d0, cl d0 + tl d0) rfl
                omega
          · simp only [if_neg hlt]
            obtain ⟨ihn, ihs⟩ := ih (some best)
            constructor
            · rw [ihn]
              simp
            · intro d sc h
              obtain ⟨hor, hmin, hacc⟩ := ihs d sc h
              refine ⟨?_, ?_, ?_⟩
              · rcases hor with h2 | h2
                · exact Or.inl h2
                · exact Or.inr ⟨List.mem_cons_of_mem d0 h2.1, h2.2⟩
              · intro d2 hd2 hc hl
                rcases List.mem_cons.mp hd2 with h2 | h2
                · subst h2
                  have := hacc best rfl
                  omega
                · exact hmin d2 h2 hc hl
              · exact fun p hp => hacc p hp

/-- Claim C9: TheoryScheduler._pick_best_day, with the two spec-modelled load
lookups, returns a not-yet-tried day satisfying both caps (cohort load below
7, teacher load below 4) that minimizes cohort load + teacher load among all
such candidate days, and returns none exactly when no untried day satisfies
both caps.  (In the source this path raises AttributeError, since
TimetableState implements neither load method.) -/
theorem pick_best_day_spec (cl tl : String → Int) (excluded : List String) :
    (∀ d, pick_best_day cl tl excluded = some d →
      d ∈ week_days ∧ d ∉ excluded ∧ cl d < 7 ∧ tl d < 4 ∧
      ∀ d2 ∈ week_days, d2 ∉ excluded → cl d2 < 7 → tl d2 < 4 →
        cl d + tl d ≤ cl d2 + tl d2)
  ∧ (pick_best_day cl tl excluded = none ↔
      ∀ d ∈ week_days, d ∉ excluded → ¬(cl d < 7 ∧ tl d < 4)) := by
  obtain ⟨hn, hs⟩ := pick_fold_char cl tl
    (week_days.filter (fun d => d ∉ excluded)) none
  constructor
  · intro d hd
    unfold pick_best_day at hd
    rw [Option.map_eq_some'] at hd
    obtain ⟨pr, hpr, hpr1⟩ := hd
    obtain ⟨d', sc⟩ := pr
    simp only at hpr1
    subst hpr1
    obtain ⟨hor, hmin, _⟩ := hs d' sc hpr
    rcases hor with h2 | h2
    · cases h2
    · obtain ⟨hdf, hc, hl, hsc⟩ := h2
      have hdm := List.mem_filter.mp hdf
      refine ⟨hdm.1, of_decide_eq_true hdm.2, hc, hl, ?_⟩
      intro d2 hd2w hd2ex hc2 hl2
      have := hmin d2 (List.mem_filter.mpr ⟨hd2w, decide_eq_true hd2ex⟩) hc2 hl2
      omega
  · unfold pick_best_day
    rw [Option.map_eq_none', hn]
    simp only [true_and]
    constructor
    · intro hall d hdw hdex
      exact hall d (List.mem_filter.mpr ⟨hdw, decide_eq_true hdex⟩)
    · intro hall d hdf
      have hdm := List.mem_filter.mp hdf
      exact hall d hdm.1 (of_decide_eq_true hdm.2)

/-- Claim C9, witness: with a Monday cohort overload and a Wednesday teacher
overload, the spec-modelled day selection picks Tuesday (score 1), beating
every other cap-satisfying day. -/
theorem pick_best_day_spec_witness :
    pick_best_day clW tlW [] = some "Tuesday" ∧
    ("Tuesday" ∈ week_days ∧ "Tuesday" ∉ ([] : List String) ∧
      clW "Tuesday" < 7 ∧ tlW "Tuesday" < 4 ∧
      ∀ d2 ∈ week_days, d2 ∉ ([] : List String) → clW d2 < 7 → tlW d2 < 4 →
        clW "Tuesday" + tlW "Tuesday" ≤ clW d2 + tlW d2) :=
  ⟨by decide, (pick_best_day_spec clW tlW []).1 "Tuesday" (by decide)⟩

/- ------------------------------------------------------------------ -/
/- Claim C10                                                           -/
/- ------------------------------------------------------------------ -/

/-- Claim C10, counterexample: the fallback candidate generate_candidates
appends last is not zero-cost — its score is the sentinel 1000 ("High score
so it's tried last"), not 0. -/
theorem generate_candidates_fallback_not_zero_cost :
    (generate_candidates ctxEmpty {} infoCG).getLast? = some (free_candidate infoCG) ∧
    (free_candidate infoCG).score = 1000 ∧ ¬((free_candidate infoCG).score = 0) := by
  refine ⟨?_, by decide, by decide⟩
  have h : generate_candidates ctxEmpty {} infoCG = [free_candidate infoCG] := by
    unfold generate_candidates
    rw [show generate_practical_candidates ctxEmpty {} infoCG ++
      generate_lecture_candidates ctxEmpty {} infoCG = [] from rfl]
    rw [List.mergeSort_nil]
    rfl
  rw [h]
  rfl

/-- Claim C10, amended: generate_candidates always returns a non-empty list
whose non-fallback prefix is sorted by ascending penalty score and whose last
element is the "leave free" fallback candidate (subject "Free"), carrying the
sentinel score 1000 rather than a zero cost. -/
theorem generate_candidates_shape (ctx : Context) (st : TimetableState)
    (info : SlotInfo) :
    generate_candidates ctx st info ≠ [] ∧
    (generate_candidates ctx st info).getLast? = some (free_candidate info) ∧
    (free_candidate info).score = 1000 ∧
    List.Pairwise (fun a b => a.score ≤ b.score)
      (generate_candidates ctx st info).dropLast := by
  unfold generate_candidates
  refine ⟨by simp, List.getLast?_concat _, rfl, ?_⟩
  rw [List.dropLast_concat]
  have hpair := @List.sorted_mergeSort Candidate
    (fun a b => decide (a.score ≤ b.score))
    (by
      intro a b c hab hbc
      simp only [decide_eq_true_eq] at hab hbc ⊢
      omega)
    (by
      intro a b
      rcases Int.le_total a.score b.score with h | h <;> simp [h])
    (generate_practical_candidates ctx st info ++
      generate_lecture_candidates ctx st info)
  exact hpair.imp (fun h => of_decide_eq_true h)
